import Mathlib

/-!
Audio and video player (`script.js`).

A shallow embedding of the page script: the helper functions (`formatTime`,
`saveToStorage`, `getFromStorage`), the video transport handlers (seek, volume,
mute) and the audio playlist controller (`loadTrack`, `playNextTrack`,
`playPreviousTrack`, shuffle, repeat, the `ended` handler).

The browser is the environment.  What the script uses of it is modelled in the
first sections: JavaScript numbers, `JSON`, `localStorage`, `Math.random` and
the fields of the two media elements and of the widgets the script writes to.
-/

namespace AudioVideoPlayer

/-! ## Environment: numbers and strings -/

/-- A JavaScript Number: NaN, an infinity, or a finite value.  Finite values are
exact rationals: rounding and the sign of zero are not represented. -/
inductive JSNumber where
  | nan
  | negInf
  | fin (q : ℚ)
  | posInf
  deriving DecidableEq, Repr

/-- An integral Number, the range of `Math.floor`. -/
inductive JSInteger where
  | nan
  | negInf
  | int (z : ℤ)
  | posInf
  deriving DecidableEq, Repr

/-- Rounding towards zero, as the `%` operator does on the quotient. -/
def truncate (q : ℚ) : ℤ :=
  if 0 ≤ q then ⌊q⌋ else ⌈q⌉

namespace JSNumber

/-- The global `isNaN` on a Number. -/
def isNaN : JSNumber → Bool
  | nan => true
  | _ => false

/-- The `*` operator. -/
def mul : JSNumber → JSNumber → JSNumber
  | nan, _ => nan
  | _, nan => nan
  | fin a, fin b => fin (a * b)
  | fin a, posInf => if a = 0 then nan else if 0 < a then posInf else negInf
  | fin a, negInf => if a = 0 then nan else if 0 < a then negInf else posInf
  | posInf, fin b => if b = 0 then nan else if 0 < b then posInf else negInf
  | negInf, fin b => if b = 0 then nan else if 0 < b then negInf else posInf
  | posInf, posInf => posInf
  | negInf, negInf => posInf
  | posInf, negInf => negInf
  | negInf, posInf => negInf

/-- The `/` operator. -/
def div : JSNumber → JSNumber → JSNumber
  | nan, _ => nan
  | _, nan => nan
  | fin a, fin b =>
    if b = 0 then (if a = 0 then nan else if 0 < a then posInf else negInf)
    else fin (a / b)
  | fin _, posInf => fin 0
  | fin _, negInf => fin 0
  | posInf, fin b => if 0 ≤ b then posInf else negInf
  | negInf, fin b => if 0 ≤ b then negInf else posInf
  | posInf, posInf => nan
  | negInf, negInf => nan
  | posInf, negInf => nan
  | negInf, posInf => nan

/-- The `%` operator: the remainder takes the sign of the dividend. -/
def rem : JSNumber → JSNumber → JSNumber
  | nan, _ => nan
  | _, nan => nan
  | posInf, _ => nan
  | negInf, _ => nan
  | fin a, posInf => fin a
  | fin a, negInf => fin a
  | fin a, fin b => if b = 0 then nan else fin (a - b * truncate (a / b))

/-- The `>` operator; any comparison with NaN is false. -/
def gt : JSNumber → JSNumber → Bool
  | nan, _ => false
  | _, nan => false
  | negInf, _ => false
  | fin _, negInf => true
  | fin a, fin b => decide (b < a)
  | fin _, posInf => false
  | posInf, posInf => false
  | posInf, _ => true

/-- The `+` operator. -/
def add : JSNumber → JSNumber → JSNumber
  | nan, _ => nan
  | _, nan => nan
  | fin a, fin b => fin (a + b)
  | fin _, posInf => posInf
  | fin _, negInf => negInf
  | posInf, fin _ => posInf
  | negInf, fin _ => negInf
  | posInf, posInf => posInf
  | negInf, negInf => negInf
  | posInf, negInf => nan
  | negInf, posInf => nan

/-- The `-` operator. -/
def sub : JSNumber → JSNumber → JSNumber
  | nan, _ => nan
  | _, nan => nan
  | fin a, fin b => fin (a - b)
  | fin _, posInf => negInf
  | fin _, negInf => posInf
  | posInf, fin _ => posInf
  | negInf, fin _ => negInf
  | posInf, negInf => posInf
  | negInf, posInf => negInf
  | posInf, posInf => nan
  | negInf, negInf => nan

end JSNumber

/-- The function `Math.floor`. -/
def mathFloor : JSNumber → JSInteger
  | .nan => .nan
  | .negInf => .negInf
  | .fin q => .int ⌊q⌋
  | .posInf => .posInf

/-- The function `Math.max` on two arguments: NaN when either is NaN. -/
def mathMax : JSNumber → JSNumber → JSNumber
  | .nan, _ => .nan
  | _, .nan => .nan
  | .posInf, _ => .posInf
  | _, .posInf => .posInf
  | .negInf, b => b
  | a, .negInf => a
  | .fin a, .fin b => .fin (max a b)

/-- The function `Math.min` on two arguments: NaN when either is NaN. -/
def mathMin : JSNumber → JSNumber → JSNumber
  | .nan, _ => .nan
  | _, .nan => .nan
  | .negInf, _ => .negInf
  | _, .negInf => .negInf
  | .posInf, b => b
  | a, .posInf => a
  | .fin a, .fin b => .fin (min a b)

/-- The method `String.prototype.toLowerCase`, on the letters `A` to `Z`; other
characters are left as they are. -/
def toLowerCase (s : String) : String :=
  String.mk (s.toList.map Char.toLower)

/-- The decimal numeral of an integer, with a minus sign when negative. -/
def intToString (z : ℤ) : String :=
  if z < 0 then "-" ++ Nat.repr z.natAbs else Nat.repr z.toNat

/-- Number to String conversion on an integral Number (template literal,
`toString()`).  Integers print as decimal numerals; the switch to exponent
notation from `10^21` on is a property of the double representation and is not
represented. -/
def JSInteger.toString : JSInteger → String
  | .nan => "NaN"
  | .negInf => "-Infinity"
  | .int z => intToString z
  | .posInf => "Infinity"

/-- The method `String.prototype.padStart`: the string is returned as it is when it is long
enough or the filler is empty; otherwise the filler is repeated, cut to the
missing length and put in front. -/
def padStart (s : String) (targetLength : ℕ) (padString : String) : String :=
  if targetLength ≤ s.length ∨ padString.length = 0 then s
  else
    let fillLen := targetLength - s.length
    String.mk ((List.replicate fillLen padString.toList).flatten.take fillLen) ++ s

/-! ## Environment: JSON and localStorage -/

/-- A JSON value.  Numbers are restricted to integers, the only numbers the page
persists or uses as a playlist index. -/
inductive JsonValue where
  | null
  | bool (b : Bool)
  | num (z : ℤ)
  | str (s : String)
  | arr (items : List JsonValue)
  | obj (fields : List (String × JsonValue))
  deriving Repr

/-- The two functions of the global `JSON` object the script calls, over a type
of serializable values.  `parse` gives `none` where `JSON.parse` throws a
SyntaxError. -/
structure JSON (Value : Type) where
  stringify : Value → String
  parse : String → Option Value

/-- The origin's `localStorage`.  When `working` is false every access throws
(storage disabled or denied). -/
structure LocalStorage where
  working : Bool
  items : List (String × String)
  deriving DecidableEq, Repr

namespace LocalStorage

/-- The call `localStorage.getItem(key)`: `none` when the call throws, `some none` for the
`null` of an absent key. -/
def getItem (ls : LocalStorage) (key : String) : Option (Option String) :=
  if ls.working then some (ls.items.lookup key) else none

/-- The call `localStorage.setItem(key, value)`: `none` when the call throws. -/
def setItem (ls : LocalStorage) (key value : String) : Option LocalStorage :=
  if ls.working then
    some { ls with items := (key, value) :: ls.items.filter (fun kv => kv.1 != key) }
  else none

end LocalStorage

/-! ## Helper functions (`script.js` lines 11-39) -/

/-- The function `formatTime(seconds)`, lines 13-18. -/
def formatTime (seconds : JSNumber) : String :=
  if seconds.isNaN then "0:00"
  else
    let minutes := mathFloor (seconds.div (.fin 60))
    let secs := mathFloor (seconds.rem (.fin 60))
    minutes.toString ++ ":" ++ padStart secs.toString 2 "0"

/-- The function `saveToStorage(key, value)`, lines 22-28: a throwing store is caught and the
write is dropped (the diagnostic on the console is not represented). -/
def saveToStorage {Value : Type} (J : JSON Value) (ls : LocalStorage) (key : String)
    (value : Value) : LocalStorage :=
  match ls.setItem key (J.stringify value) with
  | some ls' => ls'
  | none => ls

/-- The function `getFromStorage(key, defaultValue)`, lines 31-39: `stored ? JSON.parse(stored)
: defaultValue` inside a `try`; `null` and the empty string are falsy, and any
exception gives the default. -/
def getFromStorage {Value : Type} (J : JSON Value) (ls : LocalStorage) (key : String)
    (defaultValue : Value) : Value :=
  match ls.getItem key with
  | none => defaultValue
  | some none => defaultValue
  | some (some stored) =>
    if stored = "" then defaultValue
    else
      match J.parse stored with
      | some value => value
      | none => defaultValue

/-! ## State of the page -/

/-- An entry of the `playlist` array (lines 249-268). -/
structure Track where
  title : String
  artist : String
  src : String
  duration : String
  deriving DecidableEq, Repr

/-- The `playlist` of the page. -/
def playlist : List Track :=
  [ { title := "Sailing Away", artist := "Orchestral",
      src := "https://cdn.freecodecamp.org/curriculum/js-music-player/sailing-away.mp3",
      duration := "3:45" },
    { title := "We Are Going to Make It", artist := "Uplifting",
      src := "https://cdn.freecodecamp.org/curriculum/js-music-player/we-are-going-to-make-it.mp3",
      duration := "3:12" },
    { title := "Still Learning", artist := "Quincy Larson",
      src := "https://cdn.freecodecamp.org/curriculum/js-music-player/still-learning.mp3",
      duration := "3:51" } ]

/-- The values of The variable `repeatMode` (line 277). -/
inductive RepeatMode where
  | off
  | all
  | one
  deriving DecidableEq, Repr

/-- Everything the script reads or writes: its module variables, the fields of
the two media elements, the widgets, the store and the outputs `Math.random`
is still to give.  A media element field holds the value of the attribute.
An assignment to `currentTime` goes through the setter of the element
(`setCurrentTime`), which rejects a value that is not finite and clamps a seek
to the timeline; the assignments of the constant 0 are written directly, since
the setter leaves 0 at 0 whatever the duration.  What loading a new source does
to an element (position and duration are reset while it loads) is not
represented. -/
structure Player where
  /-- The variable `currentTrackIndex` (line 275), an integral Number. -/
  currentTrackIndex : ℤ
  /-- The variable `isShuffleOn` (line 276). -/
  isShuffleOn : Bool
  /-- The variable `repeatMode` (line 277). -/
  repeatMode : RepeatMode
  /-- The variable `videoScrubbing` (line 103). -/
  videoScrubbing : Bool
  /-- The variable `audioScrubbing` (line 383). -/
  audioScrubbing : Bool
  /-- The attribute `audio.src`. -/
  audioSrc : String
  /-- The attribute `audio.currentTime`. -/
  audioCurrentTime : JSNumber
  /-- The attribute `audio.duration`. -/
  audioDuration : JSNumber
  /-- The attribute `audio.paused`. -/
  audioPaused : Bool
  /-- The number of calls of `audio.play()` so far. -/
  audioPlayCalls : ℕ
  /-- The attribute `video.currentTime`. -/
  videoCurrentTime : JSNumber
  /-- The attribute `video.duration`. -/
  videoDuration : JSNumber
  /-- The attribute `video.paused`. -/
  videoPaused : Bool
  /-- The attribute `video.volume`. -/
  videoVolume : ℚ
  /-- The entry `video.dataset.previousVolume`, absent until the first mute. -/
  videoPreviousVolume : Option ℚ
  /-- The numeric value of the volume slider. -/
  videoVolumeSlider : ℚ
  /-- The glyph on the mute button. -/
  volumeIcon : String
  /-- The text of `#track-title`. -/
  trackTitle : String
  /-- The text of `#track-artist`. -/
  trackArtist : String
  /-- One entry per rendered `.playlist-item`: whether it has the class `active`. -/
  playlistItems : List Bool
  /-- Whether the shuffle button has the class `active`. -/
  shuffleBtnActive : Bool
  /-- Whether the repeat button has the class `active`. -/
  repeatBtnActive : Bool
  /-- The glyph on the repeat button. -/
  repeatBtnIcon : String
  /-- The origin's `localStorage`. -/
  localStorage : LocalStorage
  /-- The values the coming calls of `Math.random()` return, in order. -/
  random : List ℚ
  deriving DecidableEq, Repr

/-- How a run of script code ends.  `threw` is an uncaught TypeError, with the
state the code had reached; `noMoreDraws` means that a loop asked for more
random numbers than `Player.random` holds, so on those draws it has not
stopped; `unsupported` marks a stored value whose use as an index rests on
implicit conversions that are not represented. -/
inductive Outcome (α : Type) where
  | done (state : α)
  | threw (state : α)
  | noMoreDraws
  | unsupported
  deriving DecidableEq, Repr

/-- Continue with `f` after code that ended normally. -/
def Outcome.andThen {α : Type} (o : Outcome α) (f : α → α) : Outcome α :=
  match o with
  | .done s => .done (f s)
  | other => other

/-- The setter of `currentTime` on a media element of the given duration: the
position the element takes, or `none` when the setter throws a TypeError and
the position stays where it was.  A value that is not finite is rejected; a
finite one is a seek, brought back to the end of the media when it lies beyond
it and to 0 when it lies before the start.  While the duration is unknown
(nothing is loaded) a finite value is kept as the start position. -/
def setCurrentTime (duration value : JSNumber) : Option JSNumber :=
  match value with
  | .fin v =>
    match duration with
    | .fin d => some (.fin (max 0 (min v d)))
    | .posInf => some (.fin (max 0 v))
    | _ => some (.fin v)
  | _ => none

/-- The assignment `video.currentTime = value`. -/
def assignVideoCurrentTime (s : Player) (value : JSNumber) : Outcome Player :=
  match setCurrentTime s.videoDuration value with
  | some position => .done { s with videoCurrentTime := position }
  | none => .threw s

/-- The assignment `audio.currentTime = value`. -/
def assignAudioCurrentTime (s : Player) (value : JSNumber) : Outcome Player :=
  match setCurrentTime s.audioDuration value with
  | some position => .done { s with audioCurrentTime := position }
  | none => .threw s

/-- The position and width of `getBoundingClientRect()`. -/
structure Rect where
  left : ℚ
  width : ℚ
  deriving DecidableEq, Repr

/-! ## Audio player: playlist and transport (`script.js` lines 284-501) -/

/-- The element `playlist[index]`: `none` for `undefined`. -/
def playlistAt (pl : List Track) (index : ℤ) : Option Track :=
  if 0 ≤ index then pl[index.toNat]? else none

/-- The call `audio.play()`. -/
def audioPlay (s : Player) : Player :=
  { s with audioPaused := false, audioPlayCalls := s.audioPlayCalls + 1 }

/-- The function `renderPlaylist()`, lines 284-311: one item per track, the one
at `currentTrackIndex` marked active. -/
def renderPlaylist (pl : List Track) (s : Player) : Player :=
  { s with playlistItems :=
      (List.range pl.length).map (fun (index : ℕ) => decide ((index : ℤ) = s.currentTrackIndex)) }

/-- The function `loadTrack(index)`, lines 318-339.  Reading `track.src` throws a
TypeError when `playlist[index]` is `undefined`. -/
def loadTrack (J : JSON JsonValue) (pl : List Track) (s : Player) (index : ℤ) : Outcome Player :=
  match playlistAt pl index with
  | none => .threw s
  | some track =>
    .done { s with
      audioSrc := track.src
      trackTitle := track.title
      trackArtist := track.artist
      playlistItems :=
        (List.range s.playlistItems.length).map (fun (i : ℕ) => decide ((i : ℤ) = index))
      localStorage := saveToStorage J s.localStorage "currentTrackIndex" (.num index) }

/-- The click listener of the rendered playlist item `index`, lines 303-307. -/
def selectTrack (J : JSON JsonValue) (pl : List Track) (s : Player) (index : ℕ) : Outcome Player :=
  (loadTrack J pl { s with currentTrackIndex := index } index).andThen audioPlay

/-- The `do ... while` loop of `playNextTrack`, lines 421-423, over the outputs of
`Math.random()`: the index it leaves in `randomIndex` and the outputs not yet
used, or `none` when the outputs run out before the loop stops. -/
def pickRandomIndex (length : ℕ) (currentTrackIndex : ℤ) : List ℚ → Option (ℤ × List ℚ)
  | [] => none
  | u :: rest =>
    let randomIndex : ℤ := ⌊u * length⌋
    if randomIndex = currentTrackIndex ∧ length > 1 then
      pickRandomIndex length currentTrackIndex rest
    else some (randomIndex, rest)

/-- The function `playNextTrack()`, lines 417-432.  (On an empty playlist `%`
gives NaN, which is not an index either: `loadTrack` throws in both.) -/
def playNextTrack (J : JSON JsonValue) (pl : List Track) (s : Player) : Outcome Player :=
  if s.isShuffleOn then
    match pickRandomIndex pl.length s.currentTrackIndex s.random with
    | none => .noMoreDraws
    | some (randomIndex, rest) =>
      (loadTrack J pl { s with currentTrackIndex := randomIndex, random := rest }
        randomIndex).andThen audioPlay
  else
    let next := Int.tmod (s.currentTrackIndex + 1) pl.length
    (loadTrack J pl { s with currentTrackIndex := next } next).andThen audioPlay

/-- The function `playPreviousTrack()`, lines 435-445. -/
def playPreviousTrack (J : JSON JsonValue) (pl : List Track) (s : Player) : Outcome Player :=
  if s.audioCurrentTime.gt (.fin 3) then
    .done { s with audioCurrentTime := .fin 0 }
  else
    let previous := Int.tmod (s.currentTrackIndex - 1 + pl.length) pl.length
    (loadTrack J pl { s with currentTrackIndex := previous } previous).andThen audioPlay

/-- The click listener of the shuffle button, lines 455-463. -/
def toggleShuffle (s : Player) : Player :=
  let isShuffleOn := !s.isShuffleOn
  { s with isShuffleOn := isShuffleOn, shuffleBtnActive := isShuffleOn }

/-- The click listener of the repeat button, lines 470-484. -/
def cycleRepeat (s : Player) : Player :=
  if s.repeatMode = .off then
    { s with repeatMode := .all, repeatBtnActive := true, repeatBtnIcon := "🔁" }
  else if s.repeatMode = .all then
    { s with repeatMode := .one, repeatBtnIcon := "🔂" }
  else
    { s with repeatMode := .off, repeatBtnActive := false, repeatBtnIcon := "🔁" }

/-- The `ended` listener of the audio element, lines 491-501. -/
def onTrackEnded (J : JSON JsonValue) (pl : List Track) (s : Player) : Outcome Player :=
  if s.repeatMode = .one then
    .done (audioPlay { s with audioCurrentTime := .fin 0 })
  else if s.repeatMode = .all ∨ s.currentTrackIndex < (pl.length : ℤ) - 1 ∨ s.isShuffleOn then
    playNextTrack J pl s
  else .done s

/-- The start of the audio player, lines 275-277 and 575-578, on the page as the
browser hands it over: the cursor is read from the store, the playlist is
rendered and the track at the cursor is loaded. -/
def initPlaylist (J : JSON JsonValue) (pl : List Track) (page : Player) : Outcome Player :=
  match getFromStorage J page.localStorage "currentTrackIndex" (.num 0) with
  | .num z =>
    loadTrack J pl
      (renderPlaylist pl
        { page with currentTrackIndex := z, isShuffleOn := false, repeatMode := .off }) z
  | _ => .unsupported

/-! ## Seeking on the progress bars (`script.js` lines 95-122 and 375-401) -/

/-- The click listener of the video progress bar, lines 95-100. -/
def videoProgressClick (s : Player) (clientX : ℚ) (rect : Rect) : Outcome Player :=
  let clickX := clientX - rect.left
  let percentage := (JSNumber.fin clickX).div (.fin rect.width)
  assignVideoCurrentTime s (percentage.mul s.videoDuration)

/-- The `mousedown` listener of the video progress bar, lines 105-107. -/
def videoProgressMouseDown (s : Player) : Player :=
  { s with videoScrubbing := true }

/-- The first `mousemove` listener of the document, lines 109-118. -/
def videoMouseMove (s : Player) (clientX : ℚ) (rect : Rect) : Outcome Player :=
  if s.videoScrubbing then
    let clickX := clientX - rect.left
    let clickX := max 0 (min clickX rect.width)
    let percentage := (JSNumber.fin clickX).div (.fin rect.width)
    assignVideoCurrentTime s (percentage.mul s.videoDuration)
  else .done s

/-- The first `mouseup` listener of the document, lines 120-122. -/
def videoMouseUp (s : Player) : Player :=
  { s with videoScrubbing := false }

/-- The click listener of the audio progress bar, lines 375-380. -/
def audioProgressClick (s : Player) (clientX : ℚ) (rect : Rect) : Outcome Player :=
  let clickX := clientX - rect.left
  let percentage := (JSNumber.fin clickX).div (.fin rect.width)
  assignAudioCurrentTime s (percentage.mul s.audioDuration)

/-- The `mousedown` listener of the audio progress bar, lines 385-387. -/
def audioProgressMouseDown (s : Player) : Player :=
  { s with audioScrubbing := true }

/-- The second `mousemove` listener of the document, lines 389-397. -/
def audioMouseMove (s : Player) (clientX : ℚ) (rect : Rect) : Outcome Player :=
  if s.audioScrubbing then
    let clickX := clientX - rect.left
    let clickX := max 0 (min clickX rect.width)
    let percentage := (JSNumber.fin clickX).div (.fin rect.width)
    assignAudioCurrentTime s (percentage.mul s.audioDuration)
  else .done s

/-- The second `mouseup` listener of the document, lines 399-401. -/
def audioMouseUp (s : Player) : Player :=
  { s with audioScrubbing := false }

/-! ## Video volume (`script.js` lines 145-179) -/

/-- The function `updateVolumeIcon(volume)`, lines 170-179. -/
def updateVolumeIcon (s : Player) (volume : ℚ) : Player :=
  { s with volumeIcon := if volume = 0 then "🔇" else if volume < 50 then "🔉" else "🔊" }

/-- The `input` listener of the volume slider, lines 145-152, when the slider has
been moved to `p`.  The value of the slider is the string of `p`: the division
converts it to a number and the string is what is persisted. -/
def setVolumePercent (J : JSON JsonValue) (s : Player) (p : ℕ) : Player :=
  updateVolumeIcon
    { s with
      videoVolumeSlider := p
      videoVolume := (p : ℚ) / 100
      localStorage := saveToStorage J s.localStorage "videoVolume" (.str (Nat.repr p)) }
    p

/-- The click listener of the mute button, lines 155-167.  An entry of the
dataset is a non-empty string, hence truthy: `|| 1` applies only when the entry
is absent. -/
def toggleMute (s : Player) : Player :=
  if 0 < s.videoVolume then
    updateVolumeIcon
      { s with
        videoPreviousVolume := some s.videoVolume
        videoVolume := 0
        videoVolumeSlider := 0 }
      0
  else
    let previousVolume := s.videoPreviousVolume.getD 1
    updateVolumeIcon
      { s with
        videoVolume := previousVolume
        videoVolumeSlider := previousVolume * 100 }
      (previousVolume * 100)

/-! ## Keyboard shortcuts (`script.js` lines 508-567) -/

/-- What the `keydown` listener reads of the event: the tag name of its target
and the key. -/
structure KeyEvent where
  targetTagName : String
  key : String
  deriving DecidableEq, Repr

/-- The call `audio.pause()`. -/
def audioPause (s : Player) : Player :=
  { s with audioPaused := true }

/-- The call `video.pause()`. -/
def videoPause (s : Player) : Player :=
  { s with videoPaused := true }

/-- The `keydown` listener of the document, lines 508-567: its effect on the
page (the calls of `e.preventDefault()` are in `keydownPreventsDefault`). -/
def keydown (J : JSON JsonValue) (pl : List Track) (s : Player) (e : KeyEvent) :
    Outcome Player :=
  if e.targetTagName = "INPUT" ∨ e.targetTagName = "SELECT" then .done s
  else
    let key := toLowerCase e.key
    if key = " " ∨ key = "k" then
      if !s.audioPaused then .done (audioPause s)
      else if !s.videoPaused then .done (videoPause s)
      else .done (audioPlay s)
    else if key = "arrowleft" then
      if !s.audioPaused then
        assignAudioCurrentTime s (mathMax (.fin 0) (s.audioCurrentTime.sub (.fin 5)))
      else if !s.videoPaused then
        assignVideoCurrentTime s (mathMax (.fin 0) (s.videoCurrentTime.sub (.fin 5)))
      else .done s
    else if key = "arrowright" then
      if !s.audioPaused then
        assignAudioCurrentTime s (mathMin s.audioDuration (s.audioCurrentTime.add (.fin 5)))
      else if !s.videoPaused then
        assignVideoCurrentTime s (mathMin s.videoDuration (s.videoCurrentTime.add (.fin 5)))
      else .done s
    else if key = "m" then .done (toggleMute s)
    else if key = "n" then playNextTrack J pl s
    else if key = "p" then playPreviousTrack J pl s
    else .done s

/-- Whether the `keydown` listener calls `e.preventDefault()`: in every case of
the `switch`, unless the target is an input or a select. -/
def keydownPreventsDefault (e : KeyEvent) : Bool :=
  if e.targetTagName = "INPUT" ∨ e.targetTagName = "SELECT" then false
  else
    let key := toLowerCase e.key
    decide (key = " " ∨ key = "k" ∨ key = "arrowleft" ∨ key = "arrowright" ∨ key = "m" ∨
      key = "n" ∨ key = "p")

/-! ## Runs of the audio player -/

/-- What can happen to the audio player between two handlers. -/
inductive Action where
  /-- A click on the rendered playlist item `index`. -/
  | selectTrack (index : ℕ)
  /-- A click on the next button, or the key `n`. -/
  | playNext
  /-- A click on the previous button, or the key `p`. -/
  | playPrevious
  /-- The audio element fires `ended`. -/
  | trackEnded
  /-- A click on the shuffle button. -/
  | toggleShuffle
  /-- A click on the repeat button. -/
  | cycleRepeat
  /-- The audio element reports a new playback position. -/
  | playback (currentTime : JSNumber)
  deriving DecidableEq, Repr

/-- The effect of one action.  Only rendered items can be clicked: there is no
listener for an index beyond the rendered list. -/
def step (J : JSON JsonValue) (pl : List Track) (s : Player) : Action → Outcome Player
  | .selectTrack index =>
    if index < s.playlistItems.length then selectTrack J pl s index else .done s
  | .playNext => playNextTrack J pl s
  | .playPrevious => playPreviousTrack J pl s
  | .trackEnded => onTrackEnded J pl s
  | .toggleShuffle => .done (toggleShuffle s)
  | .cycleRepeat => .done (cycleRepeat s)
  | .playback currentTime => .done { s with audioCurrentTime := currentTime }

/-- A finite sequence of actions, one after the other, up to the first one that
does not end normally. -/
def run (J : JSON JsonValue) (pl : List Track) : List Action → Player → Outcome Player
  | [], s => .done s
  | a :: rest, s =>
    match step J pl s a with
    | .done s' => run J pl rest s'
    | other => other

/-- The function `playNextTrack()` called `k` times in a row. -/
def playNextTimes (J : JSON JsonValue) (pl : List Track) : ℕ → Player → Outcome Player
  | 0, s => .done s
  | k + 1, s =>
    match playNextTrack J pl s with
    | .done s' => playNextTimes J pl k s'
    | other => other

/-! ## A JSON implementation for concrete runs

The theorems below hold for every `JSON`.  To run the script on concrete store
contents a `JSON` is needed; `refJSON` implements the texts without
insignificant whitespace, fractions, exponents or escapes other than those of
the quote and the backslash.  A text outside this fragment is rejected. -/

namespace RefJSON

/-- The characters of a string literal: quote and backslash are escaped. -/
def escape : List Char → List Char
  | [] => []
  | c :: cs => if c = '"' ∨ c = '\\' then '\\' :: c :: escape cs else c :: escape cs

/-- A string literal. -/
def quote (s : String) : String :=
  "\"" ++ String.mk (escape s.toList) ++ "\""

mutual

/-- The text of a value. -/
def stringify : JsonValue → String
  | .null => "null"
  | .bool true => "true"
  | .bool false => "false"
  | .num z => intToString z
  | .str s => quote s
  | .arr items => "[" ++ stringifyItems items ++ "]"
  | .obj fields => "\x7b" ++ stringifyFields fields ++ "\x7d"

/-- The elements of an array, separated by commas. -/
def stringifyItems : List JsonValue → String
  | [] => ""
  | [v] => stringify v
  | v :: rest => stringify v ++ "," ++ stringifyItems rest

/-- The members of an object, separated by commas. -/
def stringifyFields : List (String × JsonValue) → String
  | [] => ""
  | [(k, v)] => quote k ++ ":" ++ stringify v
  | (k, v) :: rest => quote k ++ ":" ++ stringify v ++ "," ++ stringifyFields rest

end

/-- The value of a decimal digit. -/
def digitValue (c : Char) : Option ℕ :=
  if '0' ≤ c ∧ c ≤ '9' then some (c.toNat - '0'.toNat) else none

/-- The longest prefix of digits, most significant first, and what follows it. -/
def readDigits : List Char → List ℕ × List Char
  | [] => ([], [])
  | c :: cs =>
    match digitValue c with
    | some d => ((readDigits cs).1.cons d, (readDigits cs).2)
    | none => ([], c :: cs)

/-- An unsigned integer numeral: at least one digit, no leading zero. -/
def readNat (cs : List Char) : Option (ℕ × List Char) :=
  match readDigits cs with
  | ([], _) => none
  | ([d], rest) => some (d, rest)
  | (0 :: _ :: _, _) => none
  | (ds, rest) => some (ds.foldl (fun acc d => 10 * acc + d) 0, rest)

/-- The characters of a string literal after its opening quote, up to the
closing one. -/
def readString : List Char → Option (List Char × List Char)
  | [] => none
  | '"' :: rest => some ([], rest)
  | '\\' :: c :: rest =>
    if c = '"' ∨ c = '\\' then (readString rest).map (fun r => (c :: r.1, r.2)) else none
  | c :: rest => (readString rest).map (fun r => (c :: r.1, r.2))

mutual

/-- A value at the head of the text, and the rest of the text. -/
def parseValue : ℕ → List Char → Option (JsonValue × List Char)
  | 0, _ => none
  | _ + 1, 'n' :: 'u' :: 'l' :: 'l' :: rest => some (.null, rest)
  | _ + 1, 't' :: 'r' :: 'u' :: 'e' :: rest => some (.bool true, rest)
  | _ + 1, 'f' :: 'a' :: 'l' :: 's' :: 'e' :: rest => some (.bool false, rest)
  | _ + 1, '"' :: rest => (readString rest).map (fun r => (.str (String.mk r.1), r.2))
  | _ + 1, '-' :: rest => (readNat rest).map (fun r => (.num (-(r.1 : ℤ)), r.2))
  | _ + 1, '[' :: ']' :: rest => some (.arr [], rest)
  | fuel + 1, '[' :: rest => (parseItems fuel rest).map (fun r => (.arr r.1, r.2))
  | _ + 1, '\x7b' :: '\x7d' :: rest => some (.obj [], rest)
  | fuel + 1, '\x7b' :: rest => (parseFields fuel rest).map (fun r => (.obj r.1, r.2))
  | _ + 1, cs => (readNat cs).map (fun r => (.num (r.1 : ℤ), r.2))

/-- The elements of an array after its opening bracket, up to the closing one. -/
def parseItems : ℕ → List Char → Option (List JsonValue × List Char)
  | 0, _ => none
  | fuel + 1, cs =>
    match parseValue fuel cs with
    | some (v, ']' :: rest) => some ([v], rest)
    | some (v, ',' :: rest) => (parseItems fuel rest).map (fun r => (v :: r.1, r.2))
    | _ => none

/-- The members of an object after its opening brace, up to the closing one. -/
def parseFields : ℕ → List Char → Option (List (String × JsonValue) × List Char)
  | 0, _ => none
  | fuel + 1, '"' :: cs =>
    match readString cs with
    | some (k, ':' :: afterColon) =>
      match parseValue fuel afterColon with
      | some (v, '\x7d' :: rest) => some ([(String.mk k, v)], rest)
      | some (v, ',' :: rest) =>
        (parseFields fuel rest).map (fun r => ((String.mk k, v) :: r.1, r.2))
      | _ => none
    | _ => none
  | _ + 1, _ => none

end

/-- The value of a whole text; `none` when the text is not a value of the
fragment or something follows it. -/
def parse (text : String) : Option JsonValue :=
  match parseValue (text.length + 1) text.toList with
  | some (v, []) => some v
  | _ => none

end RefJSON

/-- The JSON implementation used in concrete runs. -/
def refJSON : JSON JsonValue :=
  { stringify := RefJSON.stringify, parse := RefJSON.parse }

/-- The invariant of the audio player: the cursor is an index of the playlist,
every track has its rendered item, and the pending outputs of `Math.random()`
lie in `[0, 1)`. -/
def CursorInRange (pl : List Track) (s : Player) : Prop :=
  0 ≤ s.currentTrackIndex ∧ s.currentTrackIndex < pl.length ∧
    s.playlistItems.length = pl.length ∧ ∀ u ∈ s.random, 0 ≤ u ∧ u < 1

/-! ## Concrete pages -/

/-- The page before the script has run, with the given store contents. -/
def pageWith (items : List (String × String)) : Player :=
  { currentTrackIndex := 0
    isShuffleOn := false
    repeatMode := .off
    videoScrubbing := false
    audioScrubbing := false
    audioSrc := ""
    audioCurrentTime := .fin 0
    audioDuration := .nan
    audioPaused := true
    audioPlayCalls := 0
    videoCurrentTime := .fin 0
    videoDuration := .nan
    videoPaused := true
    videoVolume := 1
    videoPreviousVolume := none
    videoVolumeSlider := 100
    volumeIcon := "🔊"
    trackTitle := ""
    trackArtist := ""
    playlistItems := []
    shuffleBtnActive := false
    repeatBtnActive := false
    repeatBtnIcon := "🔁"
    localStorage := { working := true, items := items }
    random := [] }

/-- The page on a first visit: nothing is stored. -/
def freshPage : Player := pageWith []

/-- The audio player at the given track, otherwise as on a first visit, with
the given shuffle flag and pending outputs of `Math.random()`. -/
def pageAt (index : ℤ) (shuffle : Bool) (draws : List ℚ) : Player :=
  { freshPage with
    currentTrackIndex := index
    isShuffleOn := shuffle
    playlistItems := [false, false, false]
    random := draws }

/-- The page with the given `paused` attributes of the audio and the video
element, otherwise as on a first visit. -/
def pausedPage (audioPaused videoPaused : Bool) : Player :=
  { freshPage with audioPaused := audioPaused, videoPaused := videoPaused }

/-- The page with a video of the given duration, twenty seconds in, with the
given scrubbing flag. -/
def videoPage (duration : JSNumber) (scrubbing : Bool) : Player :=
  { freshPage with
    videoDuration := duration
    videoCurrentTime := .fin 20
    videoScrubbing := scrubbing }

/-- A progress bar a hundred pixels wide, a hundred pixels from the left edge. -/
def progressBar : Rect := { left := 100, width := 100 }

/-! ## Basic facts -/

theorem playlistAt_of_inRange (pl : List Track) (index : ℤ) (hlo : 0 ≤ index)
    (hhi : index < pl.length) : ∃ track, playlistAt pl index = some track := by
  have hlt : index.toNat < pl.length := by omega
  refine ⟨pl[index.toNat], ?_⟩
  simp [playlistAt, hlo, List.getElem?_eq_getElem hlt]

theorem loadTrack_of_inRange (J : JSON JsonValue) (pl : List Track) (s : Player) (index : ℤ)
    (hlo : 0 ≤ index) (hhi : index < pl.length) :
    ∃ track s', playlistAt pl index = some track ∧ loadTrack J pl s index = .done s' ∧
      s'.audioSrc = track.src ∧ s'.trackTitle = track.title ∧ s'.trackArtist = track.artist ∧
      s'.localStorage = saveToStorage J s.localStorage "currentTrackIndex" (.num index) ∧
      s'.playlistItems.length = s.playlistItems.length ∧
      s'.currentTrackIndex = s.currentTrackIndex ∧ s'.random = s.random ∧
      s'.isShuffleOn = s.isShuffleOn ∧ s'.repeatMode = s.repeatMode ∧
      s'.audioCurrentTime = s.audioCurrentTime ∧ s'.audioPlayCalls = s.audioPlayCalls := by
  obtain ⟨track, htrack⟩ := playlistAt_of_inRange pl index hlo hhi
  simp only [loadTrack, htrack]
  refine ⟨track, _, rfl, rfl, ?_⟩
  simp

theorem loadTrack_of_outOfRange (J : JSON JsonValue) (pl : List Track) (s : Player) (index : ℤ)
    (h : index < 0 ∨ (pl.length : ℤ) ≤ index) : loadTrack J pl s index = .threw s := by
  have hnone : playlistAt pl index = none := by
    unfold playlistAt
    rcases h with h | h
    · simp [not_le.mpr h]
    · have h0 : 0 ≤ index := le_trans (Int.ofNat_nonneg _) h
      have : pl.length ≤ index.toNat := by omega
      simp [h0, List.getElem?_eq_none this]
  simp [loadTrack, hnone]

/-! ## C1: the `ended` decision table -/

/-- C1. For every playlist and every `currentTrackIndex` below its length (the
lower bound and the length being positive are not even needed): with repeat `one` the `ended` listener sets the current
time to 0 and requests play, changing nothing else; otherwise, when repeat is
`all` or the index is below the last one or shuffle is on, it does exactly what
`playNextTrack` does; otherwise repeat is `off`, shuffle is off, the index is
the last one and the state is left as it is. -/
theorem onTrackEnded_decision_table (J : JSON JsonValue) (pl : List Track) (s : Player)
    (hhi : s.currentTrackIndex < pl.length) :
    (s.repeatMode = .one →
      onTrackEnded J pl s = .done { s with
        audioCurrentTime := .fin 0
        audioPaused := false
        audioPlayCalls := s.audioPlayCalls + 1 }) ∧
    (s.repeatMode ≠ .one →
      (s.repeatMode = .all ∨ s.currentTrackIndex < (pl.length : ℤ) - 1 ∨ s.isShuffleOn = true) →
      onTrackEnded J pl s = playNextTrack J pl s) ∧
    (s.repeatMode ≠ .one →
      ¬ (s.repeatMode = .all ∨ s.currentTrackIndex < (pl.length : ℤ) - 1 ∨ s.isShuffleOn = true) →
      s.repeatMode = .off ∧ s.isShuffleOn = false ∧
        s.currentTrackIndex = (pl.length : ℤ) - 1 ∧ onTrackEnded J pl s = .done s) := by
  refine ⟨?_, ?_, ?_⟩
  · intro hone
    simp [onTrackEnded, hone, audioPlay]
  · intro hone hadv
    simp [onTrackEnded, hone, hadv]
  · intro hone hstop
    have hmode : s.repeatMode = .off := by
      cases hm : s.repeatMode with
      | off => rfl
      | all => exact absurd (Or.inl hm) hstop
      | one => exact absurd hm hone
    have hshuffle : s.isShuffleOn = false := by
      cases hsh : s.isShuffleOn with
      | false => rfl
      | true => exact absurd (Or.inr (Or.inr hsh)) hstop
    have hidx : ¬ s.currentTrackIndex < (pl.length : ℤ) - 1 := fun h =>
      hstop (Or.inr (Or.inl h))
    refine ⟨hmode, hshuffle, by omega, ?_⟩
    simp [onTrackEnded, hone, hstop]

/-- At the last of the three tracks, with repeat and shuffle off, the `ended`
listener leaves the state as it is. -/
theorem onTrackEnded_decision_table_witness :
    (pageAt 2 false []).currentTrackIndex < playlist.length ∧
      onTrackEnded refJSON playlist (pageAt 2 false []) = .done (pageAt 2 false []) :=
  ⟨by decide,
    ((onTrackEnded_decision_table refJSON playlist (pageAt 2 false []) (by decide)).2.2
      (by decide) (by decide)).2.2.2⟩

/-! ## C2: shuffle -/

theorem floor_draw_inRange (u : ℚ) (n : ℕ) (hn : 1 ≤ n) (h0 : 0 ≤ u) (h1 : u < 1) :
    0 ≤ ⌊u * n⌋ ∧ ⌊u * n⌋ < (n : ℤ) := by
  have hnq : (0 : ℚ) < n := by exact_mod_cast hn
  constructor
  · exact Int.floor_nonneg.mpr (mul_nonneg h0 hnq.le)
  · rw [Int.floor_lt]
    push_cast
    nlinarith

theorem pickRandomIndex_inRange (n : ℕ) (c : ℤ) (hn : 1 ≤ n) :
    ∀ (draws : List ℚ) (r : ℤ) (rest : List ℚ), (∀ u ∈ draws, 0 ≤ u ∧ u < 1) →
      pickRandomIndex n c draws = some (r, rest) →
      0 ≤ r ∧ r < (n : ℤ) ∧ (1 < n → r ≠ c) := by
  intro draws
  induction draws with
  | nil => intro r rest _ h; simp [pickRandomIndex] at h
  | cons u us ih =>
    intro r rest hd h
    have hu := hd u (List.mem_cons_self u us)
    have hus : ∀ v ∈ us, 0 ≤ v ∧ v < 1 := fun v hv => hd v (List.mem_cons_of_mem u hv)
    unfold pickRandomIndex at h
    by_cases hc : ⌊u * (n : ℚ)⌋ = c ∧ n > 1
    · simp only [hc, and_self, if_true] at h
      exact ih r rest hus (by simpa [hc.1] using h)
    · rw [if_neg hc] at h
      simp only [Option.some.injEq, Prod.mk.injEq] at h
      obtain ⟨hr, -⟩ := h
      subst hr
      have hb := floor_draw_inRange u n hn hu.1 hu.2
      refine ⟨hb.1, hb.2, fun hgt heq => hc ⟨heq, hgt⟩⟩

theorem pickRandomIndex_stops (n : ℕ) (c : ℤ) :
    ∀ draws : List ℚ, (∃ u ∈ draws, ⌊u * (n : ℚ)⌋ ≠ c) →
      ∃ r rest, pickRandomIndex n c draws = some (r, rest) := by
  intro draws
  induction draws with
  | nil => rintro ⟨u, hu, -⟩; simp at hu
  | cons v vs ih =>
    rintro ⟨u, hu, hne⟩
    unfold pickRandomIndex
    by_cases hc : ⌊v * (n : ℚ)⌋ = c ∧ n > 1
    · rw [if_pos hc]
      rcases List.mem_cons.mp hu with rfl | hmem
      · exact absurd hc.1 hne
      · exact ih ⟨u, hmem, hne⟩
    · rw [if_neg hc]
      exact ⟨_, _, rfl⟩

theorem shuffle_pick_done (J : JSON JsonValue) (pl : List Track) (s : Player)
    (hshuffle : s.isShuffleOn = true) (r : ℤ) (rest : List ℚ)
    (hpick : pickRandomIndex pl.length s.currentTrackIndex s.random = some (r, rest))
    (hlo : 0 ≤ r) (hhi : r < pl.length) :
    ∃ s', playNextTrack J pl s = .done s' ∧ s'.currentTrackIndex = r ∧ s'.random = rest ∧
      s'.playlistItems.length = s.playlistItems.length := by
  obtain ⟨track, s₁, -, hload, -, -, -, -, hitems, hidx, hrandom, -⟩ :=
    loadTrack_of_inRange J pl { s with currentTrackIndex := r, random := rest } r hlo hhi
  refine ⟨audioPlay s₁, ?_, ?_, ?_, ?_⟩
  · have hnext : playNextTrack J pl s =
        (loadTrack J pl { s with currentTrackIndex := r, random := rest } r).andThen
          audioPlay := by
      simp only [playNextTrack, hshuffle, hpick, if_true]
    rw [hnext, hload]
    rfl
  · simpa [audioPlay] using hidx
  · simpa [audioPlay] using hrandom
  · simpa [audioPlay] using hitems

/-- C2. With shuffle on, an in-range `currentTrackIndex` and outputs of
`Math.random()` in `[0, 1)`: on a playlist longer than one track
`playNextTrack` either runs out of random outputs or ends with an in-range
index different from the one it started from, and it does end as soon as one
output maps to another index; on a playlist of one track it ends after
exactly one output, at the same index 0. -/
theorem playNextTrack_shuffle (J : JSON JsonValue) (pl : List Track) (s : Player)
    (hshuffle : s.isShuffleOn = true) (hlo : 0 ≤ s.currentTrackIndex)
    (hhi : s.currentTrackIndex < pl.length) (hdraws : ∀ u ∈ s.random, 0 ≤ u ∧ u < 1) :
    (1 < pl.length →
      (playNextTrack J pl s = .noMoreDraws ∨
        ∃ s', playNextTrack J pl s = .done s' ∧ 0 ≤ s'.currentTrackIndex ∧
          s'.currentTrackIndex < pl.length ∧ s'.currentTrackIndex ≠ s.currentTrackIndex) ∧
      ((∃ u ∈ s.random, ⌊u * (pl.length : ℚ)⌋ ≠ s.currentTrackIndex) →
        ∃ s', playNextTrack J pl s = .done s')) ∧
    (pl.length = 1 → ∀ u rest, s.random = u :: rest →
      ∃ s', playNextTrack J pl s = .done s' ∧ s'.currentTrackIndex = 0 ∧
        s'.currentTrackIndex = s.currentTrackIndex ∧ s'.random = rest) := by
  have hn : 1 ≤ pl.length := by omega
  constructor
  · intro hlong
    have key : ∀ r rest, pickRandomIndex pl.length s.currentTrackIndex s.random = some (r, rest) →
        ∃ s', playNextTrack J pl s = .done s' ∧ 0 ≤ s'.currentTrackIndex ∧
          s'.currentTrackIndex < pl.length ∧ s'.currentTrackIndex ≠ s.currentTrackIndex := by
      intro r rest hpick
      obtain ⟨h0, h1, h2⟩ :=
        pickRandomIndex_inRange pl.length s.currentTrackIndex hn s.random r rest hdraws hpick
      obtain ⟨s', hs', hidx, -, -⟩ :=
        shuffle_pick_done J pl s hshuffle r rest hpick h0 h1
      exact ⟨s', hs', by rw [hidx]; exact h0, by rw [hidx]; exact h1,
        by rw [hidx]; exact h2 hlong⟩
    constructor
    · cases hpick : pickRandomIndex pl.length s.currentTrackIndex s.random with
      | none => left; simp [playNextTrack, hshuffle, hpick]
      | some p => right; exact key p.1 p.2 hpick
    · intro hex
      obtain ⟨r, rest, hpick⟩ := pickRandomIndex_stops pl.length s.currentTrackIndex s.random hex
      obtain ⟨s', hs', -⟩ := key r rest hpick
      exact ⟨s', hs'⟩
  · intro hone u rest hrandom
    have hu := hdraws u (by rw [hrandom]; exact List.mem_cons_self u rest)
    have hfloor : ⌊u * (pl.length : ℚ)⌋ = 0 := by
      have hb := floor_draw_inRange u pl.length hn hu.1 hu.2
      rw [hone] at hb ⊢
      have := hb.1
      have := hb.2
      omega
    have hcur : s.currentTrackIndex = 0 := by
      rw [hone] at hhi
      have : s.currentTrackIndex < 1 := by exact_mod_cast hhi
      omega
    have hpick : pickRandomIndex pl.length s.currentTrackIndex s.random = some (0, rest) := by
      rw [hrandom]
      unfold pickRandomIndex
      rw [if_neg (fun h => absurd h.2 (by omega))]
      rw [hfloor]
    obtain ⟨s', hs', hidx, hrest, -⟩ :=
      shuffle_pick_done J pl s hshuffle 0 rest hpick le_rfl
        (by rw [hone]; norm_num)
    exact ⟨s', hs', hidx, by rw [hidx, hcur], hrest⟩

/-- At track 1 of three with shuffle on: the first output 1/2 maps to index 1
again, the second, 9/10, to index 2. -/
theorem playNextTrack_shuffle_witness :
    (pageAt 1 true [1 / 2, 9 / 10]).isShuffleOn = true ∧
      (0 : ℤ) ≤ (pageAt 1 true [1 / 2, 9 / 10]).currentTrackIndex ∧
      (pageAt 1 true [1 / 2, 9 / 10]).currentTrackIndex < playlist.length ∧
      (∀ u ∈ (pageAt 1 true [1 / 2, 9 / 10]).random, 0 ≤ u ∧ u < 1) ∧
      (playNextTrack refJSON playlist (pageAt 1 true [1 / 2, 9 / 10]) = .noMoreDraws ∨
        ∃ s', playNextTrack refJSON playlist (pageAt 1 true [1 / 2, 9 / 10]) = .done s' ∧
          0 ≤ s'.currentTrackIndex ∧ s'.currentTrackIndex < playlist.length ∧
          s'.currentTrackIndex ≠ (pageAt 1 true [1 / 2, 9 / 10]).currentTrackIndex) :=
  have hdraws : ∀ u ∈ (pageAt 1 true [1 / 2, 9 / 10]).random, 0 ≤ u ∧ u < 1 := by
    intro u hu
    simp only [pageAt, List.mem_cons, List.mem_singleton, List.not_mem_nil, or_false] at hu
    rcases hu with rfl | rfl <;> norm_num
  ⟨rfl, by decide, by decide, hdraws,
    ((playNextTrack_shuffle refJSON playlist (pageAt 1 true [1 / 2, 9 / 10]) rfl (by decide)
      (by decide) hdraws).1 (by decide)).1⟩

/-! ## C3: the cursor stays in range -/

theorem pickRandomIndex_rest (n : ℕ) (c : ℤ) :
    ∀ (draws : List ℚ) (r : ℤ) (rest : List ℚ),
      pickRandomIndex n c draws = some (r, rest) → ∀ u ∈ rest, u ∈ draws := by
  intro draws
  induction draws with
  | nil => intro r rest h; simp [pickRandomIndex] at h
  | cons v vs ih =>
    intro r rest h u hu
    unfold pickRandomIndex at h
    by_cases hc : ⌊v * (n : ℚ)⌋ = c ∧ n > 1
    · rw [if_pos hc] at h
      exact List.mem_cons_of_mem v (ih r rest h u hu)
    · rw [if_neg hc] at h
      simp only [Option.some.injEq, Prod.mk.injEq] at h
      obtain ⟨-, hrest⟩ := h
      subst hrest
      exact List.mem_cons_of_mem v hu

theorem andThen_audioPlay_of_loadTrack (J : JSON JsonValue) (pl : List Track) (s : Player) (index : ℤ)
    (hlo : 0 ≤ index) (hhi : index < pl.length) :
    ∃ track s', playlistAt pl index = some track ∧
      (loadTrack J pl s index).andThen audioPlay = .done s' ∧
      s'.audioSrc = track.src ∧ s'.trackTitle = track.title ∧ s'.trackArtist = track.artist ∧
      s'.localStorage = saveToStorage J s.localStorage "currentTrackIndex" (.num index) ∧
      s'.playlistItems.length = s.playlistItems.length ∧
      s'.currentTrackIndex = s.currentTrackIndex ∧ s'.random = s.random ∧
      s'.isShuffleOn = s.isShuffleOn ∧ s'.repeatMode = s.repeatMode ∧
      s'.audioCurrentTime = s.audioCurrentTime ∧ s'.audioPlayCalls = s.audioPlayCalls + 1 ∧
      s'.audioPaused = false := by
  obtain ⟨track, s₁, h1, h2, h3, h4, h5, h6, h7, h8, h9, h10, h11, h12, h13⟩ :=
    loadTrack_of_inRange J pl s index hlo hhi
  refine ⟨track, audioPlay s₁, h1, by rw [h2]; rfl, ?_⟩
  simp only [audioPlay]
  exact ⟨h3, h4, h5, h6, h7, h8, h9, h10, h11, h12, by rw [h13], trivial⟩

theorem tmod_succ_inRange (i : ℤ) (n : ℕ) (hlo : 0 ≤ i) (hhi : i < n) :
    Int.tmod (i + 1) n = (i + 1) % n ∧ 0 ≤ (i + 1) % (n : ℤ) ∧ (i + 1) % (n : ℤ) < n := by
  have hn : (0 : ℤ) < n := by omega
  exact ⟨Int.tmod_eq_emod (by omega) hn.le, Int.emod_nonneg _ hn.ne', Int.emod_lt_of_pos _ hn⟩

theorem tmod_pred_inRange (i : ℤ) (n : ℕ) (hlo : 0 ≤ i) (hhi : i < n) :
    Int.tmod (i - 1 + n) n = (i - 1 + n) % n ∧ 0 ≤ (i - 1 + n) % (n : ℤ) ∧
      (i - 1 + n) % (n : ℤ) < n := by
  have hn : (0 : ℤ) < n := by omega
  exact ⟨Int.tmod_eq_emod (by omega) hn.le, Int.emod_nonneg _ hn.ne', Int.emod_lt_of_pos _ hn⟩

theorem playNextTrack_inOrder (J : JSON JsonValue) (pl : List Track) (s : Player)
    (hshuffle : s.isShuffleOn = false) (hlo : 0 ≤ s.currentTrackIndex)
    (hhi : s.currentTrackIndex < pl.length) :
    ∃ s', playNextTrack J pl s = .done s' ∧
      s'.currentTrackIndex = (s.currentTrackIndex + 1) % (pl.length : ℤ) ∧
      s'.playlistItems.length = s.playlistItems.length ∧ s'.random = s.random ∧
      s'.isShuffleOn = false := by
  obtain ⟨hmod, h0, h1⟩ := tmod_succ_inRange s.currentTrackIndex pl.length hlo hhi
  obtain ⟨track, s', -, hdone, -, -, -, -, hitems, hidx, hrandom, hsh, -⟩ :=
    andThen_audioPlay_of_loadTrack J pl
      { s with currentTrackIndex := (s.currentTrackIndex + 1) % (pl.length : ℤ) }
      ((s.currentTrackIndex + 1) % (pl.length : ℤ)) h0 h1
  refine ⟨s', ?_, hidx, hitems, hrandom, by rw [hsh]; exact hshuffle⟩
  rw [← hdone]
  simp only [playNextTrack, hshuffle, hmod]
  rfl

theorem playNextTrack_cursorInRange (J : JSON JsonValue) (pl : List Track) (s : Player)
    (h : CursorInRange pl s) :
    (playNextTrack J pl s = .noMoreDraws ∧ s.isShuffleOn = true) ∨
      ∃ s', playNextTrack J pl s = .done s' ∧ CursorInRange pl s' ∧
        s'.isShuffleOn = s.isShuffleOn := by
  obtain ⟨hlo, hhi, hitems, hdraws⟩ := h
  cases hshuffle : s.isShuffleOn with
  | false =>
    right
    obtain ⟨s', hdone, hidx, hlen, hrandom, hsh⟩ :=
      playNextTrack_inOrder J pl s hshuffle hlo hhi
    obtain ⟨-, h0, h1⟩ := tmod_succ_inRange s.currentTrackIndex pl.length hlo hhi
    exact ⟨s', hdone, ⟨by rw [hidx]; exact h0, by rw [hidx]; exact h1, by rw [hlen, hitems],
      by rw [hrandom]; exact hdraws⟩, hsh⟩
  | true =>
    cases hpick : pickRandomIndex pl.length s.currentTrackIndex s.random with
    | none => left; exact ⟨by simp [playNextTrack, hshuffle, hpick], rfl⟩
    | some p =>
      right
      obtain ⟨r, rest⟩ := p
      obtain ⟨h0, h1, -⟩ :=
        pickRandomIndex_inRange pl.length s.currentTrackIndex (by omega) s.random r rest hdraws hpick
      obtain ⟨track, s', -, hdone, -, -, -, -, hlen, hidx, hrandom, hsh, -⟩ :=
        andThen_audioPlay_of_loadTrack J pl
          { s with currentTrackIndex := r, random := rest } r h0 h1
      refine ⟨s', ?_, ⟨by rw [hidx]; exact h0, by rw [hidx]; exact h1, by rw [hlen, hitems],
        ?_⟩, by rw [hsh]; exact hshuffle⟩
      · rw [← hdone]
        simp only [playNextTrack, hshuffle, hpick, if_true]
      · rw [hrandom]
        intro u hu
        exact hdraws u (pickRandomIndex_rest pl.length s.currentTrackIndex s.random r rest hpick u hu)

theorem playPreviousTrack_back (J : JSON JsonValue) (pl : List Track) (s : Player)
    (htime : s.audioCurrentTime.gt (.fin 3) = false) (hlo : 0 ≤ s.currentTrackIndex)
    (hhi : s.currentTrackIndex < pl.length) :
    ∃ track s', playlistAt pl ((s.currentTrackIndex - 1 + pl.length) % (pl.length : ℤ)) = some track ∧
      playPreviousTrack J pl s = .done s' ∧
      s'.currentTrackIndex = (s.currentTrackIndex - 1 + pl.length) % (pl.length : ℤ) ∧
      s'.audioSrc = track.src ∧ s'.trackTitle = track.title ∧ s'.trackArtist = track.artist ∧
      s'.localStorage = saveToStorage J s.localStorage "currentTrackIndex"
        (.num ((s.currentTrackIndex - 1 + pl.length) % (pl.length : ℤ))) ∧
      s'.audioPlayCalls = s.audioPlayCalls + 1 ∧ s'.audioPaused = false ∧
      s'.audioCurrentTime = s.audioCurrentTime ∧
      s'.playlistItems.length = s.playlistItems.length ∧ s'.random = s.random ∧
      s'.isShuffleOn = s.isShuffleOn := by
  obtain ⟨hmod, h0, h1⟩ := tmod_pred_inRange s.currentTrackIndex pl.length hlo hhi
  obtain ⟨track, s', htrack, hdone, hsrc, htitle, hartist, hstore, hitems, hidx, hrandom, hsh, -,
      htime', hcalls, hpaused⟩ :=
    andThen_audioPlay_of_loadTrack J pl
      { s with currentTrackIndex := (s.currentTrackIndex - 1 + pl.length) % (pl.length : ℤ) }
      ((s.currentTrackIndex - 1 + pl.length) % (pl.length : ℤ)) h0 h1
  refine ⟨track, s', htrack, ?_, hidx, hsrc, htitle, hartist, hstore, hcalls, hpaused, htime',
    hitems, hrandom, hsh⟩
  rw [← hdone]
  simp only [playPreviousTrack, htime, hmod]
  rfl

theorem playPreviousTrack_cursorInRange (J : JSON JsonValue) (pl : List Track) (s : Player)
    (h : CursorInRange pl s) :
    ∃ s', playPreviousTrack J pl s = .done s' ∧ CursorInRange pl s' ∧
      s'.isShuffleOn = s.isShuffleOn := by
  obtain ⟨hlo, hhi, hitems, hdraws⟩ := h
  cases htime : s.audioCurrentTime.gt (.fin 3) with
  | true =>
    exact ⟨{ s with audioCurrentTime := .fin 0 }, by simp [playPreviousTrack, htime],
      ⟨hlo, hhi, hitems, hdraws⟩, rfl⟩
  | false =>
    obtain ⟨-, h0, h1⟩ := tmod_pred_inRange s.currentTrackIndex pl.length hlo hhi
    obtain ⟨track, s', -, hdone, hidx, -, -, -, -, -, -, -, hlen, hrandom, hsh⟩ :=
      playPreviousTrack_back J pl s htime hlo hhi
    exact ⟨s', hdone, ⟨by rw [hidx]; exact h0, by rw [hidx]; exact h1, by rw [hlen, hitems],
      by rw [hrandom]; exact hdraws⟩, hsh⟩

theorem selectTrack_cursorInRange (J : JSON JsonValue) (pl : List Track) (s : Player) (index : ℕ)
    (h : CursorInRange pl s) (hindex : index < s.playlistItems.length) :
    ∃ s', selectTrack J pl s index = .done s' ∧ CursorInRange pl s' ∧
      s'.isShuffleOn = s.isShuffleOn := by
  obtain ⟨-, -, hitems, hdraws⟩ := h
  have hhi : (index : ℤ) < pl.length := by rw [hitems] at hindex; exact_mod_cast hindex
  obtain ⟨track, s', -, hdone, -, -, -, -, hlen, hidx, hrandom, hsh, -⟩ :=
    andThen_audioPlay_of_loadTrack J pl { s with currentTrackIndex := index } index
      (Int.ofNat_nonneg index) hhi
  exact ⟨s', hdone, ⟨by rw [hidx]; exact Int.ofNat_nonneg index, by rw [hidx]; exact hhi,
    by rw [hlen, hitems], by rw [hrandom]; exact hdraws⟩, hsh⟩

theorem onTrackEnded_cursorInRange (J : JSON JsonValue) (pl : List Track) (s : Player)
    (h : CursorInRange pl s) :
    (onTrackEnded J pl s = .noMoreDraws ∧ s.isShuffleOn = true) ∨
      ∃ s', onTrackEnded J pl s = .done s' ∧ CursorInRange pl s' ∧
        s'.isShuffleOn = s.isShuffleOn := by
  unfold onTrackEnded
  split_ifs with hone hadv
  · exact Or.inr ⟨_, rfl, h, rfl⟩
  · exact playNextTrack_cursorInRange J pl s h
  · exact Or.inr ⟨s, rfl, h, rfl⟩

theorem step_cursorInRange (J : JSON JsonValue) (pl : List Track) (s : Player) (a : Action)
    (h : CursorInRange pl s) :
    (step J pl s a = .noMoreDraws ∧ s.isShuffleOn = true) ∨
      ∃ s', step J pl s a = .done s' ∧ CursorInRange pl s' ∧
        (a ≠ .toggleShuffle → s'.isShuffleOn = s.isShuffleOn) := by
  cases a with
  | selectTrack index =>
    right
    by_cases hindex : index < s.playlistItems.length
    · obtain ⟨s', hdone, hinv, hsh⟩ := selectTrack_cursorInRange J pl s index h hindex
      exact ⟨s', by simp [step, hindex, hdone], hinv, fun _ => hsh⟩
    · exact ⟨s, by simp [step, hindex], h, fun _ => rfl⟩
  | playNext =>
    rcases playNextTrack_cursorInRange J pl s h with hnone | ⟨s', hdone, hinv, hsh⟩
    · exact Or.inl hnone
    · exact Or.inr ⟨s', hdone, hinv, fun _ => hsh⟩
  | playPrevious =>
    obtain ⟨s', hdone, hinv, hsh⟩ := playPreviousTrack_cursorInRange J pl s h
    exact Or.inr ⟨s', hdone, hinv, fun _ => hsh⟩
  | trackEnded =>
    rcases onTrackEnded_cursorInRange J pl s h with hnone | ⟨s', hdone, hinv, hsh⟩
    · exact Or.inl hnone
    · exact Or.inr ⟨s', hdone, hinv, fun _ => hsh⟩
  | toggleShuffle => exact Or.inr ⟨toggleShuffle s, rfl, h, fun hne => absurd rfl hne⟩
  | cycleRepeat =>
    refine Or.inr ⟨cycleRepeat s, rfl, ?_, fun _ => ?_⟩
    · unfold cycleRepeat; split_ifs <;> exact h
    · unfold cycleRepeat; split_ifs <;> rfl
  | playback currentTime => exact Or.inr ⟨_, rfl, h, fun _ => rfl⟩

theorem run_cursorInRange (J : JSON JsonValue) (pl : List Track) :
    ∀ (actions : List Action) (s : Player), CursorInRange pl s →
      (run J pl actions s = .noMoreDraws ∨
        ∃ s', run J pl actions s = .done s' ∧ CursorInRange pl s') ∧
      (s.isShuffleOn = false → Action.toggleShuffle ∉ actions →
        ∃ s', run J pl actions s = .done s') := by
  intro actions
  induction actions with
  | nil => intro s h; exact ⟨Or.inr ⟨s, rfl, h⟩, fun _ _ => ⟨s, rfl⟩⟩
  | cons a rest ih =>
    intro s h
    rcases step_cursorInRange J pl s a h with ⟨hnone, hsh⟩ | ⟨s', hdone, hinv, hkeep⟩
    · exact ⟨Or.inl (by simp [run, hnone]), fun hoff _ => by simp [hoff] at hsh⟩
    · have hrun : run J pl (a :: rest) s = run J pl rest s' := by simp [run, hdone]
      rw [hrun]
      refine ⟨(ih s' hinv).1, fun hoff hno => ?_⟩
      have ha : a ≠ .toggleShuffle := fun heq => hno (by rw [heq]; exact List.mem_cons_self _ _)
      exact (ih s' hinv).2 (by rw [hkeep ha]; exact hoff)
        (fun hmem => hno (List.mem_cons_of_mem a hmem))

/-- C3, as the code has it. The start assigns to `currentTrackIndex` the value
`getFromStorage('currentTrackIndex', 0)` returns, here an integer `z` (which is
0 when nothing is stored under the key). When `z` is an index of the playlist
the start loads track `z`, and after every finite sequence of item clicks,
next, previous, `ended`, shuffle and repeat clicks and playback progress, with
the outputs of `Math.random()` in `[0, 1)`, either a shuffle loop has used up
the random outputs or the sequence has ended normally (no `loadTrack` has
thrown) with `0 ≤ currentTrackIndex < playlist.length` and a track at the
cursor; a sequence without a shuffle click always ends normally. When `z` is
not an index of the playlist, `loadTrack` throws at the start and
`currentTrackIndex` is left at `z`. -/
theorem currentTrackIndex_inRange (J : JSON JsonValue) (pl : List Track) (page : Player)
    (z : ℤ)
    (hstored : getFromStorage J page.localStorage "currentTrackIndex" (.num 0) = .num z)
    (hdraws : ∀ u ∈ page.random, 0 ≤ u ∧ u < 1) :
    (0 ≤ z → z < pl.length →
      ∃ s₀, initPlaylist J pl page = .done s₀ ∧ s₀.currentTrackIndex = z ∧
        ∀ actions : List Action,
          (run J pl actions s₀ = .noMoreDraws ∨
            ∃ s, run J pl actions s₀ = .done s ∧ 0 ≤ s.currentTrackIndex ∧
              s.currentTrackIndex < pl.length ∧
              ∃ track, playlistAt pl s.currentTrackIndex = some track) ∧
          (Action.toggleShuffle ∉ actions → ∃ s, run J pl actions s₀ = .done s)) ∧
    ((z < 0 ∨ (pl.length : ℤ) ≤ z) →
      ∃ s, initPlaylist J pl page = .threw s ∧ s.currentTrackIndex = z) ∧
    (page.localStorage.items.lookup "currentTrackIndex" = none → z = 0) := by
  refine ⟨fun hlo hhi => ?_, fun hout => ?_, fun habsent => ?_⟩
  · obtain ⟨track, s₀, -, hload, -, -, -, -, hitems, hidx, hrandom, hsh, -⟩ :=
      loadTrack_of_inRange J pl
        (renderPlaylist pl
          { page with currentTrackIndex := z, isShuffleOn := false, repeatMode := .off })
        z hlo hhi
    have hinit : initPlaylist J pl page = .done s₀ := by
      rw [← hload]
      simp only [initPlaylist, hstored]
    have hinv : CursorInRange pl s₀ := by
      refine ⟨?_, ?_, ?_, ?_⟩
      · rw [hidx]; exact hlo
      · rw [hidx]; exact hhi
      · rw [hitems]; simp [renderPlaylist]
      · rw [hrandom]; exact hdraws
    refine ⟨s₀, hinit, hidx, fun actions => ⟨?_, fun hno => ?_⟩⟩
    · rcases (run_cursorInRange J pl actions s₀ hinv).1 with hnone | ⟨s, hdone, h0, h1, -, -⟩
      · exact Or.inl hnone
      · exact Or.inr ⟨s, hdone, h0, h1, playlistAt_of_inRange pl _ h0 h1⟩
    · exact (run_cursorInRange J pl actions s₀ hinv).2 hsh hno
  · refine ⟨renderPlaylist pl
      { page with currentTrackIndex := z, isShuffleOn := false, repeatMode := .off }, ?_, rfl⟩
    simp only [initPlaylist, hstored]
    exact loadTrack_of_outOfRange J pl _ z hout
  · have hdefault : getFromStorage J page.localStorage "currentTrackIndex" (.num 0) = .num 0 := by
      unfold getFromStorage LocalStorage.getItem
      split_ifs <;> simp [habsent]
    rw [hdefault] at hstored
    injection hstored with hz
    exact hz.symm

/-- A store holding `"2"` under `currentTrackIndex`: the start loads track 2 and
the cursor stays in range. -/
theorem currentTrackIndex_inRange_witness :
    getFromStorage refJSON (pageWith [("currentTrackIndex", "2")]).localStorage
        "currentTrackIndex" (.num 0) = .num 2 ∧
      (∀ u ∈ (pageWith [("currentTrackIndex", "2")]).random, 0 ≤ u ∧ u < 1) ∧
      ∃ s₀, initPlaylist refJSON playlist (pageWith [("currentTrackIndex", "2")]) = .done s₀ ∧
        s₀.currentTrackIndex = 2 ∧
        ∀ actions : List Action,
          (run refJSON playlist actions s₀ = .noMoreDraws ∨
            ∃ s, run refJSON playlist actions s₀ = .done s ∧ 0 ≤ s.currentTrackIndex ∧
              s.currentTrackIndex < playlist.length ∧
              ∃ track, playlistAt playlist s.currentTrackIndex = some track) ∧
          (Action.toggleShuffle ∉ actions → ∃ s, run refJSON playlist actions s₀ = .done s) :=
  have hdraws : ∀ u ∈ (pageWith [("currentTrackIndex", "2")]).random, 0 ≤ u ∧ u < 1 := by
    intro u hu
    simp [pageWith] at hu
  ⟨rfl, hdraws,
    (currentTrackIndex_inRange refJSON playlist (pageWith [("currentTrackIndex", "2")]) 2
      rfl hdraws).1 (by decide) (by decide)⟩

/-- C3 fails for a store whose cursor is not an index of the playlist: with
`"7"` stored under `currentTrackIndex` the start assigns 7 to
`currentTrackIndex` and `loadTrack(7)` throws on the three-track playlist. -/
theorem currentTrackIndex_outOfRange_at_start :
    ∃ s, initPlaylist refJSON playlist (pageWith [("currentTrackIndex", "7")]) = .threw s ∧
      getFromStorage refJSON (pageWith [("currentTrackIndex", "7")]).localStorage
        "currentTrackIndex" (.num 0) = .num 7 ∧
      s.currentTrackIndex = 7 ∧ ¬ s.currentTrackIndex < playlist.length ∧
      playlistAt playlist s.currentTrackIndex = none :=
  ⟨_, rfl, rfl, rfl, by decide, rfl⟩

/-! ## C4: previous -/

/-- C4. For an in-range `currentTrackIndex` and an elapsed time `t`: when
`t > 3`, `playPreviousTrack` sets the current time to 0 and changes nothing
else (index, source and store stay); when `t ≤ 3`, three included, the index
becomes `(currentTrackIndex - 1 + length) mod length`, the track at that index
is loaded (source, title, artist, persisted cursor) and play is requested; so
from index 0 it goes to `length - 1`. -/
theorem playPreviousTrack_threshold (J : JSON JsonValue) (pl : List Track) (s : Player) (t : ℚ)
    (htime : s.audioCurrentTime = .fin t) (hlo : 0 ≤ s.currentTrackIndex)
    (hhi : s.currentTrackIndex < pl.length) :
    (3 < t → playPreviousTrack J pl s = .done { s with audioCurrentTime := .fin 0 }) ∧
    (t ≤ 3 → ∃ track s',
      playlistAt pl ((s.currentTrackIndex - 1 + pl.length) % (pl.length : ℤ)) = some track ∧
      playPreviousTrack J pl s = .done s' ∧
      s'.currentTrackIndex = (s.currentTrackIndex - 1 + pl.length) % (pl.length : ℤ) ∧
      s'.audioSrc = track.src ∧ s'.trackTitle = track.title ∧ s'.trackArtist = track.artist ∧
      s'.localStorage = saveToStorage J s.localStorage "currentTrackIndex"
        (.num ((s.currentTrackIndex - 1 + pl.length) % (pl.length : ℤ))) ∧
      s'.audioPlayCalls = s.audioPlayCalls + 1 ∧ s'.audioPaused = false ∧
      (s.currentTrackIndex = 0 → s'.currentTrackIndex = (pl.length : ℤ) - 1)) := by
  constructor
  · intro hgt
    have hcmp : s.audioCurrentTime.gt (.fin 3) = true := by
      rw [htime]; simp [JSNumber.gt, hgt]
    simp only [playPreviousTrack, hcmp, if_true]
  · intro hle
    have hcmp : s.audioCurrentTime.gt (.fin 3) = false := by
      rw [htime]; simp [JSNumber.gt, hle]
    obtain ⟨track, s', htrack, hdone, hidx, hsrc, htitle, hartist, hstore, hcalls, hpaused, -⟩ :=
      playPreviousTrack_back J pl s hcmp hlo hhi
    refine ⟨track, s', htrack, hdone, hidx, hsrc, htitle, hartist, hstore, hcalls, hpaused, ?_⟩
    intro hzero
    rw [hidx, hzero]
    have hn : (0 : ℤ) < pl.length := by omega
    rw [Int.emod_eq_of_lt (by omega) (by omega)]
    ring

/-- At track 0 of three with no time elapsed, previous goes to the last track. -/
theorem playPreviousTrack_threshold_witness :
    (pageAt 0 false []).audioCurrentTime = .fin 0 ∧
      (0 : ℤ) ≤ (pageAt 0 false []).currentTrackIndex ∧
      (pageAt 0 false []).currentTrackIndex < playlist.length ∧
      ∃ s', playPreviousTrack refJSON playlist (pageAt 0 false []) = .done s' ∧
        s'.currentTrackIndex = (playlist.length : ℤ) - 1 :=
  ⟨rfl, by decide, by decide,
    match (playPreviousTrack_threshold refJSON playlist (pageAt 0 false []) 0 rfl (by decide)
      (by decide)).2 (by norm_num) with
    | ⟨_, s', _, hdone, _, _, _, _, _, _, _, hlast⟩ => ⟨s', hdone, hlast rfl⟩⟩

/-! ## C5: next in order -/

theorem playNextTimes_inOrder (J : JSON JsonValue) (pl : List Track) :
    ∀ (k : ℕ) (s : Player), s.isShuffleOn = false → 0 ≤ s.currentTrackIndex →
      s.currentTrackIndex < pl.length →
      ∃ s', playNextTimes J pl k s = .done s' ∧
        s'.currentTrackIndex = (s.currentTrackIndex + k) % (pl.length : ℤ) := by
  intro k
  induction k with
  | zero =>
    intro s _ hlo hhi
    exact ⟨s, rfl, by simp [Int.emod_eq_of_lt hlo hhi]⟩
  | succ k ih =>
    intro s hshuffle hlo hhi
    obtain ⟨s₁, hdone, hidx, -, -, hsh⟩ := playNextTrack_inOrder J pl s hshuffle hlo hhi
    obtain ⟨-, h0, h1⟩ := tmod_succ_inRange s.currentTrackIndex pl.length hlo hhi
    obtain ⟨s', hrun, hfinal⟩ := ih s₁ hsh (by rw [hidx]; exact h0) (by rw [hidx]; exact h1)
    refine ⟨s', by simp only [playNextTimes, hdone]; exact hrun, ?_⟩
    rw [hfinal, hidx, Int.emod_add_emod]
    push_cast
    ring_nf

/-- C5. With shuffle off and an in-range `currentTrackIndex = i`,
`playNextTrack` ends with `currentTrackIndex = (i + 1) mod length`; and `k`
calls in a row starting from index 0 end with `currentTrackIndex = k mod
length`. -/
theorem playNextTrack_cyclic (J : JSON JsonValue) (pl : List Track) (s : Player)
    (hshuffle : s.isShuffleOn = false) (hlo : 0 ≤ s.currentTrackIndex)
    (hhi : s.currentTrackIndex < pl.length) :
    (∃ s', playNextTrack J pl s = .done s' ∧
      s'.currentTrackIndex = (s.currentTrackIndex + 1) % (pl.length : ℤ)) ∧
    (s.currentTrackIndex = 0 → ∀ k : ℕ, ∃ s', playNextTimes J pl k s = .done s' ∧
      s'.currentTrackIndex = ((k % pl.length : ℕ) : ℤ)) := by
  constructor
  · obtain ⟨s', hdone, hidx, -⟩ := playNextTrack_inOrder J pl s hshuffle hlo hhi
    exact ⟨s', hdone, hidx⟩
  · intro hzero k
    obtain ⟨s', hdone, hidx⟩ := playNextTimes_inOrder J pl k s hshuffle hlo hhi
    refine ⟨s', hdone, ?_⟩
    rw [hidx, hzero, zero_add]
    norm_cast

/-- Four calls from track 0 of three end at track `4 mod 3`. -/
theorem playNextTrack_cyclic_witness :
    (pageAt 0 false []).isShuffleOn = false ∧
      (0 : ℤ) ≤ (pageAt 0 false []).currentTrackIndex ∧
      (pageAt 0 false []).currentTrackIndex < playlist.length ∧
      ∃ s', playNextTimes refJSON playlist 4 (pageAt 0 false []) = .done s' ∧
        s'.currentTrackIndex = ((4 % playlist.length : ℕ) : ℤ) :=
  ⟨rfl, by decide, by decide,
    (playNextTrack_cyclic refJSON playlist (pageAt 0 false []) rfl (by decide) (by decide)).2
      rfl 4⟩

/-! ## C6: the repeat cycle -/

theorem cycleRepeat_iterate (s : Player) (hmode : s.repeatMode = .off)
    (hactive : s.repeatBtnActive = false) :
    ∀ k : ℕ,
      (k % 3 = 0 → (cycleRepeat^[k] s).repeatMode = .off ∧
        (cycleRepeat^[k] s).repeatBtnActive = false) ∧
      (k % 3 = 1 → (cycleRepeat^[k] s).repeatMode = .all ∧
        (cycleRepeat^[k] s).repeatBtnActive = true) ∧
      (k % 3 = 2 → (cycleRepeat^[k] s).repeatMode = .one ∧
        (cycleRepeat^[k] s).repeatBtnActive = true) := by
  intro k
  induction k with
  | zero => simp [hmode, hactive]
  | succ k ih =>
    rw [Function.iterate_succ_apply']
    obtain ⟨ih0, ih1, ih2⟩ := ih
    have hk : k % 3 = 0 ∨ k % 3 = 1 ∨ k % 3 = 2 := by omega
    rcases hk with hk | hk | hk
    · obtain ⟨hm, -⟩ := ih0 hk
      refine ⟨fun h => by omega, fun _ => ?_, fun h => by omega⟩
      simp [cycleRepeat, hm]
    · obtain ⟨hm, ha⟩ := ih1 hk
      refine ⟨fun h => by omega, fun h => by omega, fun _ => ?_⟩
      simp [cycleRepeat, hm, ha]
    · obtain ⟨hm, -⟩ := ih2 hk
      refine ⟨fun _ => ?_, fun h => by omega, fun h => by omega⟩
      simp [cycleRepeat, hm]

/-- C6. The repeat button maps `off` to `all`, `all` to `one` and `one` to
`off`, so three clicks from any mode give that mode back; from the initial
state (mode `off`, button not active) the mode after `k` clicks is
`[off, all, one][k mod 3]` and the button is active exactly when the mode is
`all` or `one`. -/
theorem cycleRepeat_three_cycle (s : Player) (hmode : s.repeatMode = .off)
    (hactive : s.repeatBtnActive = false) :
    (∀ p : Player, (p.repeatMode = .off → (cycleRepeat p).repeatMode = .all) ∧
      (p.repeatMode = .all → (cycleRepeat p).repeatMode = .one) ∧
      (p.repeatMode = .one → (cycleRepeat p).repeatMode = .off) ∧
      (cycleRepeat (cycleRepeat (cycleRepeat p))).repeatMode = p.repeatMode) ∧
    (∀ k : ℕ,
      (cycleRepeat^[k] s).repeatMode = [RepeatMode.off, .all, .one].getD (k % 3) .off ∧
      ((cycleRepeat^[k] s).repeatBtnActive = true ↔
        (cycleRepeat^[k] s).repeatMode = .all ∨ (cycleRepeat^[k] s).repeatMode = .one)) := by
  constructor
  · intro p
    refine ⟨fun h => by simp [cycleRepeat, h], fun h => by simp [cycleRepeat, h],
      fun h => by simp [cycleRepeat, h], ?_⟩
    cases hp : p.repeatMode <;> simp [cycleRepeat, hp]
  · intro k
    obtain ⟨h0, h1, h2⟩ := cycleRepeat_iterate s hmode hactive k
    have hk : k % 3 = 0 ∨ k % 3 = 1 ∨ k % 3 = 2 := by omega
    rcases hk with hk | hk | hk
    · obtain ⟨hm, ha⟩ := h0 hk
      simp [hk, hm, ha]
    · obtain ⟨hm, ha⟩ := h1 hk
      simp [hk, hm, ha]
    · obtain ⟨hm, ha⟩ := h2 hk
      simp [hk, hm, ha]

/-- Five clicks on the repeat button of a fresh page. -/
theorem cycleRepeat_three_cycle_witness :
    freshPage.repeatMode = .off ∧ freshPage.repeatBtnActive = false ∧
      (cycleRepeat^[5] freshPage).repeatMode = [RepeatMode.off, .all, .one].getD (5 % 3) .off ∧
      ((cycleRepeat^[5] freshPage).repeatBtnActive = true ↔
        (cycleRepeat^[5] freshPage).repeatMode = .all ∨
          (cycleRepeat^[5] freshPage).repeatMode = .one) :=
  ⟨rfl, rfl, (cycleRepeat_three_cycle freshPage rfl rfl).2 5⟩

/-! ## C7: `formatTime` -/

theorem digitChar_ne_zero (k : ℕ) (h0 : 0 < k) (h9 : k < 10) : Nat.digitChar k ≠ '0' := by
  interval_cases k <;> decide

theorem toDigitsCore_head (fuel : ℕ) :
    ∀ (n : ℕ) (ds : List Char), 0 < n → n < fuel →
      ∃ c rest, Nat.toDigitsCore 10 fuel n ds = c :: rest ∧ c ≠ '0' := by
  induction fuel with
  | zero => intro n ds _ h; omega
  | succ fuel ih =>
    intro n ds hpos hlt
    unfold Nat.toDigitsCore
    by_cases hq : n / 10 = 0
    · simp only [hq, if_true]
      have hn : n < 10 := by omega
      exact ⟨_, _, rfl, digitChar_ne_zero _ (by omega) (Nat.mod_lt _ (by norm_num))⟩
    · simp only [hq, if_false]
      exact ih (n / 10) _ (by omega) (by omega)

theorem repr_no_leading_zero (n : ℕ) (hpos : 0 < n) :
    ∃ c rest, (Nat.repr n).data = c :: rest ∧ c ≠ '0' := by
  obtain ⟨c, rest, h, hc⟩ := toDigitsCore_head (n + 1) n [] hpos (by omega)
  exact ⟨c, rest, by simpa [Nat.repr, Nat.toDigits, List.asString] using h, hc⟩

theorem padStart_two_digits (k : ℕ) (hk : k < 60) :
    padStart (Nat.repr k) 2 "0" = String.mk [Nat.digitChar (k / 10), Nat.digitChar (k % 10)] := by
  interval_cases k <;> rfl

theorem intToString_natCast (n : ℕ) : intToString (n : ℤ) = Nat.repr n := by
  simp [intToString]

theorem formatTime_nonneg (q : ℚ) (hq : 0 ≤ q) :
    formatTime (.fin q) = Nat.repr ⌊q / 60⌋₊ ++ ":" ++
      String.mk [Nat.digitChar (⌊q⌋₊ % 60 / 10), Nat.digitChar (⌊q⌋₊ % 60 % 10)] := by
  have hq60 : (0 : ℚ) ≤ q / 60 := by positivity
  have hmin : ⌊q / 60⌋ = ((⌊q / 60⌋₊ : ℕ) : ℤ) := (Int.natCast_floor_eq_floor hq60).symm
  have hfl : ⌊q⌋ = ((⌊q⌋₊ : ℕ) : ℤ) := (Int.natCast_floor_eq_floor hq).symm
  have hdiv : ⌊q / 60⌋₊ = ⌊q⌋₊ / 60 := by
    have := Nat.floor_div_nat q 60
    simpa using this
  have hsec : ⌊q - 60 * ((truncate (q / 60) : ℤ) : ℚ)⌋ = ((⌊q⌋₊ % 60 : ℕ) : ℤ) := by
    have htr : truncate (q / 60) = ⌊q / 60⌋ := by simp [truncate, hq60]
    rw [htr]
    have hcast : (60 : ℚ) * ((⌊q / 60⌋ : ℤ) : ℚ) = ((60 * ⌊q / 60⌋ : ℤ) : ℚ) := by
      push_cast; ring
    rw [hcast, Int.floor_sub_int, hmin, hfl, hdiv]
    omega
  have hlt : ⌊q⌋₊ % 60 < 60 := Nat.mod_lt _ (by norm_num)
  have h10 : ⌊q⌋₊ % 60 % 10 = ⌊q⌋₊ % 10 := by omega
  simp only [formatTime, JSNumber.isNaN, JSNumber.div, JSNumber.rem, mathFloor,
    JSInteger.toString]
  norm_num
  rw [hsec, hmin, intToString_natCast, intToString_natCast, padStart_two_digits _ hlt, h10]

/-- C7. For every finite number of seconds `q ≥ 0`, `formatTime` gives the
decimal numeral of `floor(q / 60)`, which does not start with a zero unless it
is `0`, a colon, and the two decimal digits of `floor(q) mod 60`;
`formatTime(NaN)` is `"0:00"`; and on 0, 59, 60, 125 and 3661 it gives `"0:00"`,
`"0:59"`, `"1:00"`, `"2:05"` and `"61:01"`. -/
theorem formatTime_minutes_seconds (q : ℚ) (hq : 0 ≤ q) :
    formatTime (.fin q) = Nat.repr ⌊q / 60⌋₊ ++ ":" ++
        String.mk [Nat.digitChar (⌊q⌋₊ % 60 / 10), Nat.digitChar (⌊q⌋₊ % 60 % 10)] ∧
      (0 < ⌊q / 60⌋₊ → ∃ c rest, (Nat.repr ⌊q / 60⌋₊).data = c :: rest ∧ c ≠ '0') ∧
      formatTime .nan = "0:00" ∧
      formatTime (.fin 0) = "0:00" ∧ formatTime (.fin 59) = "0:59" ∧
      formatTime (.fin 60) = "1:00" ∧ formatTime (.fin 125) = "2:05" ∧
      formatTime (.fin 3661) = "61:01" := by
  refine ⟨formatTime_nonneg q hq, repr_no_leading_zero _, rfl, ?_, ?_, ?_, ?_, ?_⟩ <;>
  · norm_num [formatTime, JSNumber.isNaN, JSNumber.div, JSNumber.rem, mathFloor, truncate,
      JSInteger.toString, intToString]
    decide

/-- Two hundred ninety-nine and a half seconds print as `4:59`. -/
theorem formatTime_minutes_seconds_witness :
    (0 : ℚ) ≤ 599 / 2 ∧ formatTime (.fin (599 / 2)) = "4:59" :=
  have hmin : ⌊(599 / 2 : ℚ) / 60⌋₊ = 4 := by
    rw [Nat.floor_eq_iff (by norm_num)]; norm_num
  have hsec : ⌊(599 / 2 : ℚ)⌋₊ = 299 := by
    rw [Nat.floor_eq_iff (by norm_num)]; norm_num
  ⟨by norm_num, (formatTime_minutes_seconds (599 / 2) (by norm_num)).1.trans (by rw [hmin, hsec]; decide)⟩

/-! ## C8: seeking -/

theorem setCurrentTime_zero (duration : JSNumber) :
    setCurrentTime duration (.fin 0) = some (.fin 0) := by
  cases duration with
  | nan => rfl
  | negInf => rfl
  | posInf => simp [setCurrentTime]
  | fin d =>
    have h : max 0 (min 0 d) = 0 := max_eq_left (min_le_left 0 d)
    simp [setCurrentTime, h]

theorem clamped_fraction_inRange (f d : ℚ) (hd : 0 ≤ d) :
    0 ≤ max 0 (min f 1) * d ∧ max 0 (min f 1) * d ≤ d := by
  have h0 : 0 ≤ max 0 (min f 1) := le_max_left _ _
  have h1 : max 0 (min f 1) ≤ 1 := max_le zero_le_one (min_le_right _ _)
  exact ⟨mul_nonneg h0 hd, by nlinarith⟩

theorem clamp_click (x w d : ℚ) (hd : 0 < d) :
    max 0 (min (x / w * d) d) = max 0 (min (x / w) 1) * d := by
  rw [max_mul_of_nonneg _ _ hd.le, min_mul_of_nonneg _ _ hd.le, zero_mul, one_mul]

theorem clamp_scrub (x w d : ℚ) (hw : 0 < w) (hd : 0 < d) :
    max 0 (min (max 0 (min x w) / w * d) d) = max 0 (min (x / w) 1) * d := by
  have hf : max 0 (min x w) / w = max 0 (min (x / w) 1) := by
    rw [← max_div_div_right hw.le, ← min_div_div_right hw.le, zero_div, div_self hw.ne']
  have hb := clamped_fraction_inRange (x / w) d hd.le
  rw [hf, min_eq_left hb.2, max_eq_right hb.1]

theorem assign_nan (s : Player) :
    assignVideoCurrentTime s .nan = .threw s ∧ assignAudioCurrentTime s .nan = .threw s :=
  ⟨rfl, rfl⟩

theorem mul_of_div_zero (x d : ℚ) (hd : 0 ≤ d) :
    ∀ t : ℚ, ((JSNumber.fin x).div (.fin 0)).mul (.fin d) ≠ .fin t := by
  intro t
  rcases lt_trichotomy x 0 with hx | hx | hx
  · have h1 : ¬ (0 : ℚ) < x := not_lt.mpr hx.le
    by_cases hd0 : d = 0
    · simp [JSNumber.div, JSNumber.mul, hx.ne, h1, hd0]
    · have hdpos : 0 < d := lt_of_le_of_ne hd (Ne.symm hd0)
      simp [JSNumber.div, JSNumber.mul, hx.ne, h1, hd0, hdpos]
  · simp [JSNumber.div, JSNumber.mul, hx]
  · by_cases hd0 : d = 0
    · simp [JSNumber.div, JSNumber.mul, hx.ne', hx, hd0]
    · have hdpos : 0 < d := lt_of_le_of_ne hd (Ne.symm hd0)
      simp [JSNumber.div, JSNumber.mul, hx.ne', hx, hd0, hdpos]

theorem setCurrentTime_of_not_fin (duration value : JSNumber) (h : ∀ t : ℚ, value ≠ .fin t) :
    setCurrentTime duration value = none := by
  cases value with
  | fin t => exact absurd rfl (h t)
  | nan => rfl
  | negInf => rfl
  | posInf => rfl

theorem videoProgressClick_seek (s : Player) (clientX : ℚ) (rect : Rect) (d : ℚ)
    (hw : 0 < rect.width) (hd : 0 < d) (hdur : s.videoDuration = .fin d) :
    videoProgressClick s clientX rect = .done { s with
      videoCurrentTime := .fin (max 0 (min ((clientX - rect.left) / rect.width) 1) * d) } := by
  have hval : ((JSNumber.fin (clientX - rect.left)).div (.fin rect.width)).mul (.fin d) =
      .fin ((clientX - rect.left) / rect.width * d) := by
    simp [JSNumber.div, JSNumber.mul, hw.ne']
  simp only [videoProgressClick, hval, assignVideoCurrentTime, hdur, setCurrentTime,
    clamp_click _ _ _ hd]

theorem videoMouseMove_seek (s : Player) (clientX : ℚ) (rect : Rect) (d : ℚ)
    (hw : 0 < rect.width) (hd : 0 < d) (hdur : s.videoDuration = .fin d)
    (hscrub : s.videoScrubbing = true) :
    videoMouseMove s clientX rect = .done { s with
      videoCurrentTime := .fin (max 0 (min ((clientX - rect.left) / rect.width) 1) * d) } := by
  have hval : ((JSNumber.fin (max 0 (min (clientX - rect.left) rect.width))).div
      (.fin rect.width)).mul (.fin d) =
      .fin (max 0 (min (clientX - rect.left) rect.width) / rect.width * d) := by
    simp [JSNumber.div, JSNumber.mul, hw.ne']
  simp only [videoMouseMove, hscrub, if_true, hval, assignVideoCurrentTime, hdur, setCurrentTime,
    clamp_scrub _ _ _ hw hd]

theorem video_seek_zero_width (s : Player) (clientX : ℚ) (rect : Rect) (d : ℚ)
    (hw : rect.width = 0) (hd : 0 ≤ d) (hdur : s.videoDuration = .fin d) :
    videoProgressClick s clientX rect = .threw s ∧
      (s.videoScrubbing = true → videoMouseMove s clientX rect = .threw s) := by
  constructor
  · have hnone := setCurrentTime_of_not_fin s.videoDuration _
      (mul_of_div_zero (clientX - rect.left) d hd)
    simp only [videoProgressClick, assignVideoCurrentTime, hw, hdur] at hnone ⊢
    rw [hnone]
  · intro hscrub
    have hnone := setCurrentTime_of_not_fin s.videoDuration _
      (mul_of_div_zero (max 0 (min (clientX - rect.left) 0)) d hd)
    simp only [videoMouseMove, hscrub, if_true, assignVideoCurrentTime, hw, hdur] at hnone ⊢
    rw [hnone]

theorem video_seek_unknown_duration (s : Player) (clientX : ℚ) (rect : Rect)
    (hdur : s.videoDuration = .nan) :
    videoProgressClick s clientX rect = .threw s ∧
      (s.videoScrubbing = true → videoMouseMove s clientX rect = .threw s) := by
  have hmul : ∀ a : JSNumber, a.mul .nan = .nan := by
    intro a; cases a <;> rfl
  constructor
  · simp only [videoProgressClick, hdur, hmul]
    exact (assign_nan s).1
  · intro hscrub
    simp only [videoMouseMove, hscrub, if_true, hdur, hmul]
    exact (assign_nan s).1

theorem video_seek_zero_duration (s : Player) (clientX : ℚ) (rect : Rect)
    (hw : 0 < rect.width) (hdur : s.videoDuration = .fin 0) (htime : s.videoCurrentTime = .fin 0) :
    videoProgressClick s clientX rect = .done s ∧ videoMouseMove s clientX rect = .done s := by
  have hclamp : ∀ v : ℚ, max 0 (min v 0) = 0 := fun v => max_eq_left (min_le_right v 0)
  constructor
  · have hval : ((JSNumber.fin (clientX - rect.left)).div (.fin rect.width)).mul (.fin 0) =
        .fin ((clientX - rect.left) / rect.width * 0) := by
      simp [JSNumber.div, JSNumber.mul, hw.ne']
    simp only [videoProgressClick, hval, assignVideoCurrentTime, hdur, setCurrentTime, hclamp]
    congr 1
    cases s
    simp_all
  · by_cases hscrub : s.videoScrubbing = true
    · have hval : ((JSNumber.fin (max 0 (min (clientX - rect.left) rect.width))).div
          (.fin rect.width)).mul (.fin 0) =
          .fin (max 0 (min (clientX - rect.left) rect.width) / rect.width * 0) := by
        simp [JSNumber.div, JSNumber.mul, hw.ne']
      simp only [videoMouseMove, hscrub, if_true, hval, assignVideoCurrentTime, hdur,
        setCurrentTime, hclamp]
      congr 1
      cases s
      simp_all
    · simp [videoMouseMove, hscrub]

theorem audioProgressClick_seek (s : Player) (clientX : ℚ) (rect : Rect) (d : ℚ)
    (hw : 0 < rect.width) (hd : 0 < d) (hdur : s.audioDuration = .fin d) :
    audioProgressClick s clientX rect = .done { s with
      audioCurrentTime := .fin (max 0 (min ((clientX - rect.left) / rect.width) 1) * d) } := by
  have hval : ((JSNumber.fin (clientX - rect.left)).div (.fin rect.width)).mul (.fin d) =
      .fin ((clientX - rect.left) / rect.width * d) := by
    simp [JSNumber.div, JSNumber.mul, hw.ne']
  simp only [audioProgressClick, hval, assignAudioCurrentTime, hdur, setCurrentTime,
    clamp_click _ _ _ hd]

theorem audioMouseMove_seek (s : Player) (clientX : ℚ) (rect : Rect) (d : ℚ)
    (hw : 0 < rect.width) (hd : 0 < d) (hdur : s.audioDuration = .fin d)
    (hscrub : s.audioScrubbing = true) :
    audioMouseMove s clientX rect = .done { s with
      audioCurrentTime := .fin (max 0 (min ((clientX - rect.left) / rect.width) 1) * d) } := by
  have hval : ((JSNumber.fin (max 0 (min (clientX - rect.left) rect.width))).div
      (.fin rect.width)).mul (.fin d) =
      .fin (max 0 (min (clientX - rect.left) rect.width) / rect.width * d) := by
    simp [JSNumber.div, JSNumber.mul, hw.ne']
  simp only [audioMouseMove, hscrub, if_true, hval, assignAudioCurrentTime, hdur, setCurrentTime,
    clamp_scrub _ _ _ hw hd]

theorem audio_seek_zero_width (s : Player) (clientX : ℚ) (rect : Rect) (d : ℚ)
    (hw : rect.width = 0) (hd : 0 ≤ d) (hdur : s.audioDuration = .fin d) :
    audioProgressClick s clientX rect = .threw s ∧
      (s.audioScrubbing = true → audioMouseMove s clientX rect = .threw s) := by
  constructor
  · have hnone := setCurrentTime_of_not_fin s.audioDuration _
      (mul_of_div_zero (clientX - rect.left) d hd)
    simp only [audioProgressClick, assignAudioCurrentTime, hw, hdur] at hnone ⊢
    rw [hnone]
  · intro hscrub
    have hnone := setCurrentTime_of_not_fin s.audioDuration _
      (mul_of_div_zero (max 0 (min (clientX - rect.left) 0)) d hd)
    simp only [audioMouseMove, hscrub, if_true, assignAudioCurrentTime, hw, hdur] at hnone ⊢
    rw [hnone]

theorem audio_seek_unknown_duration (s : Player) (clientX : ℚ) (rect : Rect)
    (hdur : s.audioDuration = .nan) :
    audioProgressClick s clientX rect = .threw s ∧
      (s.audioScrubbing = true → audioMouseMove s clientX rect = .threw s) := by
  have hmul : ∀ a : JSNumber, a.mul .nan = .nan := by
    intro a; cases a <;> rfl
  constructor
  · simp only [audioProgressClick, hdur, hmul]
    exact (assign_nan s).2
  · intro hscrub
    simp only [audioMouseMove, hscrub, if_true, hdur, hmul]
    exact (assign_nan s).2

theorem audio_seek_zero_duration (s : Player) (clientX : ℚ) (rect : Rect)
    (hw : 0 < rect.width) (hdur : s.audioDuration = .fin 0) (htime : s.audioCurrentTime = .fin 0) :
    audioProgressClick s clientX rect = .done s ∧ audioMouseMove s clientX rect = .done s := by
  have hclamp : ∀ v : ℚ, max 0 (min v 0) = 0 := fun v => max_eq_left (min_le_right v 0)
  constructor
  · have hval : ((JSNumber.fin (clientX - rect.left)).div (.fin rect.width)).mul (.fin 0) =
        .fin ((clientX - rect.left) / rect.width * 0) := by
      simp [JSNumber.div, JSNumber.mul, hw.ne']
    simp only [audioProgressClick, hval, assignAudioCurrentTime, hdur, setCurrentTime, hclamp]
    congr 1
    cases s
    simp_all
  · by_cases hscrub : s.audioScrubbing = true
    · have hval : ((JSNumber.fin (max 0 (min (clientX - rect.left) rect.width))).div
          (.fin rect.width)).mul (.fin 0) =
          .fin (max 0 (min (clientX - rect.left) rect.width) / rect.width * 0) := by
        simp [JSNumber.div, JSNumber.mul, hw.ne']
      simp only [audioMouseMove, hscrub, if_true, hval, assignAudioCurrentTime, hdur,
        setCurrentTime, hclamp]
      congr 1
      cases s
      simp_all
    · simp [audioMouseMove, hscrub]

/-- C8. For the click and the scrub listeners of both media elements, every
pointer position and every progress bar (of width at least 0): with a known
duration `d > 0` and a bar of positive width the new `currentTime` is
`f * d`, where `f` is the fraction `clickX / width` clamped to `[0, 1]`, so it
lies in `[0, d]`; on a bar of width 0 the value assigned is not a finite number,
the setter throws and `currentTime` stays where it was.  With the duration
unknown (NaN) the value assigned is NaN, the setter throws and the state is
left as it is.  With a duration `d ≤ 0` (the position of the element lying in
`[0, d]`) the state is left as it is.  A `mousemove` outside a scrub changes
nothing. -/
theorem seek_clamped_and_guarded (s : Player) (clientX : ℚ) (rect : Rect)
    (hwidth : 0 ≤ rect.width) :
    (∀ d : ℚ, 0 < d →
      (0 ≤ max 0 (min ((clientX - rect.left) / rect.width) 1) * d ∧
        max 0 (min ((clientX - rect.left) / rect.width) 1) * d ≤ d) ∧
      (s.videoDuration = .fin d →
        (0 < rect.width →
          videoProgressClick s clientX rect = .done { s with
            videoCurrentTime := .fin (max 0 (min ((clientX - rect.left) / rect.width) 1) * d) } ∧
          (s.videoScrubbing = true → videoMouseMove s clientX rect = .done { s with
            videoCurrentTime := .fin (max 0 (min ((clientX - rect.left) / rect.width) 1) * d) })) ∧
        (rect.width = 0 →
          videoProgressClick s clientX rect = .threw s ∧
          (s.videoScrubbing = true → videoMouseMove s clientX rect = .threw s))) ∧
      (s.audioDuration = .fin d →
        (0 < rect.width →
          audioProgressClick s clientX rect = .done { s with
            audioCurrentTime := .fin (max 0 (min ((clientX - rect.left) / rect.width) 1) * d) } ∧
          (s.audioScrubbing = true → audioMouseMove s clientX rect = .done { s with
            audioCurrentTime := .fin (max 0 (min ((clientX - rect.left) / rect.width) 1) * d) })) ∧
        (rect.width = 0 →
          audioProgressClick s clientX rect = .threw s ∧
          (s.audioScrubbing = true → audioMouseMove s clientX rect = .threw s)))) ∧
    (s.videoDuration = .nan →
      videoProgressClick s clientX rect = .threw s ∧
      (s.videoScrubbing = true → videoMouseMove s clientX rect = .threw s)) ∧
    (s.audioDuration = .nan →
      audioProgressClick s clientX rect = .threw s ∧
      (s.audioScrubbing = true → audioMouseMove s clientX rect = .threw s)) ∧
    (∀ d c : ℚ, d ≤ 0 → 0 ≤ c → c ≤ d →
      (s.videoDuration = .fin d → s.videoCurrentTime = .fin c →
        (videoProgressClick s clientX rect = .done s ∨
          videoProgressClick s clientX rect = .threw s) ∧
        (videoMouseMove s clientX rect = .done s ∨
          videoMouseMove s clientX rect = .threw s)) ∧
      (s.audioDuration = .fin d → s.audioCurrentTime = .fin c →
        (audioProgressClick s clientX rect = .done s ∨
          audioProgressClick s clientX rect = .threw s) ∧
        (audioMouseMove s clientX rect = .done s ∨
          audioMouseMove s clientX rect = .threw s))) ∧
    (s.videoScrubbing = false → videoMouseMove s clientX rect = .done s) ∧
    (s.audioScrubbing = false → audioMouseMove s clientX rect = .done s) := by
  refine ⟨fun d hd => ⟨clamped_fraction_inRange _ d hd.le, fun hdur => ⟨fun hw => ?_, fun hw => ?_⟩,
      fun hdur => ⟨fun hw => ?_, fun hw => ?_⟩⟩,
    fun hdur => video_seek_unknown_duration s clientX rect hdur,
    fun hdur => audio_seek_unknown_duration s clientX rect hdur,
    fun d c hd h0 h1 => ?_, fun hscrub => ?_, fun hscrub => ?_⟩
  · exact ⟨videoProgressClick_seek s clientX rect d hw hd hdur,
      fun hscrub => videoMouseMove_seek s clientX rect d hw hd hdur hscrub⟩
  · exact video_seek_zero_width s clientX rect d hw hd.le hdur
  · exact ⟨audioProgressClick_seek s clientX rect d hw hd hdur,
      fun hscrub => audioMouseMove_seek s clientX rect d hw hd hdur hscrub⟩
  · exact audio_seek_zero_width s clientX rect d hw hd.le hdur
  · have hd0 : d = 0 := le_antisymm hd (le_trans h0 h1)
    have hc0 : c = 0 := le_antisymm (le_trans h1 hd) h0
    constructor
    · intro hdur htime
      rw [hd0] at hdur
      rw [hc0] at htime
      rcases lt_or_eq_of_le hwidth with hw | hw
      · obtain ⟨h1, h2⟩ := video_seek_zero_duration s clientX rect hw hdur htime
        exact ⟨Or.inl h1, Or.inl h2⟩
      · obtain ⟨h1, h2⟩ := video_seek_zero_width s clientX rect 0 hw.symm le_rfl hdur
        refine ⟨Or.inr h1, ?_⟩
        by_cases hscrub : s.videoScrubbing = true
        · exact Or.inr (h2 hscrub)
        · exact Or.inl (by simp [videoMouseMove, hscrub])
    · intro hdur htime
      rw [hd0] at hdur
      rw [hc0] at htime
      rcases lt_or_eq_of_le hwidth with hw | hw
      · obtain ⟨h1, h2⟩ := audio_seek_zero_duration s clientX rect hw hdur htime
        exact ⟨Or.inl h1, Or.inl h2⟩
      · obtain ⟨h1, h2⟩ := audio_seek_zero_width s clientX rect 0 hw.symm le_rfl hdur
        refine ⟨Or.inr h1, ?_⟩
        by_cases hscrub : s.audioScrubbing = true
        · exact Or.inr (h2 hscrub)
        · exact Or.inl (by simp [audioMouseMove, hscrub])
  · simp [videoMouseMove, hscrub]
  · simp [audioMouseMove, hscrub]

/-- A scrub far to the right of the bar on a video of 50 seconds, and a click
left of the bar: the position becomes the clamped fraction of the duration. -/
theorem seek_clamped_and_guarded_witness :
    0 ≤ progressBar.width ∧
      videoMouseMove (videoPage (.fin 50) true) 500 progressBar =
        .done { videoPage (.fin 50) true with
          videoCurrentTime :=
            .fin (max 0 (min ((500 - progressBar.left) / progressBar.width) 1) * 50) } ∧
      videoProgressClick (videoPage (.fin 50) true) 90 progressBar =
        .done { videoPage (.fin 50) true with
          videoCurrentTime :=
            .fin (max 0 (min ((90 - progressBar.left) / progressBar.width) 1) * 50) } :=
  ⟨by norm_num [progressBar],
    ((((seek_clamped_and_guarded (videoPage (.fin 50) true) 500 progressBar
      (by norm_num [progressBar])).1 50 (by norm_num)).2.1 rfl).1
        (by norm_num [progressBar])).2 rfl,
    ((((seek_clamped_and_guarded (videoPage (.fin 50) true) 90 progressBar
      (by norm_num [progressBar])).1 50 (by norm_num)).2.1 rfl).1
        (by norm_num [progressBar])).1⟩

/-! ## C9: mute and unmute -/

/-- C9. After the slider has been moved to `p ≥ 1` (the bound `p ≤ 100` is not
needed), a click on mute leaves the volume and the slider at 0 and a second
click brings the volume back to `p / 100` and the slider back to `p`.  At
volume 0 a click on mute restores the recorded previous volume whenever there
is one, and 1 (slider 100) only when none has been recorded. -/
theorem mute_unmute_restores (J : JSON JsonValue) (s : Player) (p : ℕ) (hp : 1 ≤ p) :
    (setVolumePercent J s p).videoVolume = (p : ℚ) / 100 ∧
    (toggleMute (setVolumePercent J s p)).videoVolume = 0 ∧
    (toggleMute (setVolumePercent J s p)).videoVolumeSlider = 0 ∧
    (toggleMute (toggleMute (setVolumePercent J s p))).videoVolume = (p : ℚ) / 100 ∧
    (toggleMute (toggleMute (setVolumePercent J s p))).videoVolumeSlider = p ∧
    (∀ m : Player, m.videoVolume = 0 →
      (m.videoPreviousVolume = none →
        (toggleMute m).videoVolume = 1 ∧ (toggleMute m).videoVolumeSlider = 100) ∧
      (∀ v : ℚ, m.videoPreviousVolume = some v →
        (toggleMute m).videoVolume = v ∧ (toggleMute m).videoVolumeSlider = v * 100)) := by
  have hpos : (0 : ℚ) < (p : ℚ) / 100 := by
    have : (0 : ℚ) < p := by exact_mod_cast hp
    positivity
  have hset : (setVolumePercent J s p).videoVolume = (p : ℚ) / 100 := by
    simp [setVolumePercent, updateVolumeIcon]
  have hmute : (toggleMute (setVolumePercent J s p)).videoVolume = 0 ∧
      (toggleMute (setVolumePercent J s p)).videoVolumeSlider = 0 ∧
      (toggleMute (setVolumePercent J s p)).videoPreviousVolume = some ((p : ℚ) / 100) := by
    have h : 0 < (setVolumePercent J s p).videoVolume := by rw [hset]; exact hpos
    have hgen : ∀ m : Player, 0 < m.videoVolume →
        (toggleMute m).videoVolume = 0 ∧ (toggleMute m).videoVolumeSlider = 0 ∧
          (toggleMute m).videoPreviousVolume = some m.videoVolume := by
      intro m hm
      simp [toggleMute, hm, updateVolumeIcon]
    rw [← hset]
    exact hgen _ h
  obtain ⟨hvol, hslider, hprev⟩ := hmute
  have hunmute : ∀ m : Player, m.videoVolume = 0 →
      (toggleMute m).videoVolume = m.videoPreviousVolume.getD 1 ∧
        (toggleMute m).videoVolumeSlider = m.videoPreviousVolume.getD 1 * 100 := by
    intro m hm
    simp [toggleMute, hm, updateVolumeIcon]
  refine ⟨hset, hvol, hslider, ?_, ?_, fun m hm => ⟨fun hnone => ?_, fun v hsome => ?_⟩⟩
  · rw [(hunmute _ hvol).1, hprev]; rfl
  · rw [(hunmute _ hvol).2, hprev]
    simp
  · have := hunmute m hm
    rw [hnone] at this
    simpa using this
  · have := hunmute m hm
    rw [hsome] at this
    simpa using this

/-- The slider at 70, then mute twice. -/
theorem mute_unmute_restores_witness :
    1 ≤ 70 ∧
      (toggleMute (setVolumePercent refJSON freshPage 70)).videoVolume = 0 ∧
      (toggleMute (toggleMute (setVolumePercent refJSON freshPage 70))).videoVolume =
        ((70 : ℕ) : ℚ) / 100 ∧
      (toggleMute (toggleMute (setVolumePercent refJSON freshPage 70))).videoVolumeSlider =
        (70 : ℕ) :=
  ⟨by decide, (mute_unmute_restores refJSON freshPage 70 (by decide)).2.1,
    (mute_unmute_restores refJSON freshPage 70 (by decide)).2.2.2.1,
    (mute_unmute_restores refJSON freshPage 70 (by decide)).2.2.2.2.1⟩

/-! ## C10: the preference store -/

theorem lookup_filter_ne (items : List (String × String)) (key other : String)
    (hne : key ≠ other) :
    (items.filter (fun kv => kv.1 != other)).lookup key = items.lookup key := by
  induction items with
  | nil => rfl
  | cons kv rest ih =>
    obtain ⟨k, v⟩ := kv
    by_cases hk : k = other
    · subst hk
      have hkey : (key == k) = false := by simpa using hne
      simp [List.filter, List.lookup, hkey, ih]
    · have hfilter : (k != other) = true := by simpa using hk
      simp only [List.filter, hfilter, List.lookup]
      rw [ih]

/-- C10. Over a working store and a `JSON`, on any type of values, whose
`parse` rejects the empty text: for every key, every value `v` that `JSON`
serializes faithfully (`parse (stringify v) = v`) and every default, `getFromStorage` after
`saveToStorage` of `v` under the same key returns `v`; a write under another key
does not change what a key reads; and a key with no entry reads as the
default. -/
theorem storage_roundtrip {Value : Type} (J : JSON Value) (ls : LocalStorage)
    (hworking : ls.working = true) (hempty : J.parse "" = none) :
    (∀ (k : String) (v d : Value), J.parse (J.stringify v) = some v →
      getFromStorage J (saveToStorage J ls k v) k d = v) ∧
    (∀ (k other : String) (v d : Value), k ≠ other →
      getFromStorage J (saveToStorage J ls other v) k d = getFromStorage J ls k d) ∧
    (∀ (key : String) (d : Value), ls.items.lookup key = none →
      getFromStorage J ls key d = d) := by
  refine ⟨fun k v d hrt => ?_, fun k other v d hne => ?_, fun key d habsent => ?_⟩
  · have hne : J.stringify v ≠ "" := by
      intro h
      rw [h, hempty] at hrt
      exact absurd hrt (by simp)
    simp [getFromStorage, saveToStorage, LocalStorage.setItem, LocalStorage.getItem, hworking,
      List.lookup, hne, hrt]
  · simp [getFromStorage, saveToStorage, LocalStorage.setItem, LocalStorage.getItem, hworking,
      List.lookup, lookup_filter_ne ls.items k other hne,
      show (k == other) = false by simpa using hne]
  · simp [getFromStorage, LocalStorage.getItem, hworking, habsent]

/-- The store on 42, 0, `false`, the empty string and an absent key. -/
theorem storage_roundtrip_witness :
    freshPage.localStorage.working = true ∧ refJSON.parse "" = none ∧
      getFromStorage refJSON (saveToStorage refJSON freshPage.localStorage "k" (.num 42)) "k"
        (.num 0) = .num 42 ∧
      getFromStorage refJSON (saveToStorage refJSON freshPage.localStorage "k" (.num 0)) "k"
        (.num 5) = .num 0 ∧
      getFromStorage refJSON (saveToStorage refJSON freshPage.localStorage "k" (.bool false)) "k"
        (.bool true) = .bool false ∧
      getFromStorage refJSON (saveToStorage refJSON freshPage.localStorage "k" (.str "")) "k"
        (.str "x") = .str "" ∧
      getFromStorage refJSON freshPage.localStorage "absent" (.num 7) = .num 7 :=
  ⟨rfl, rfl,
    (storage_roundtrip refJSON freshPage.localStorage rfl rfl).1 "k" (.num 42) (.num 0) rfl,
    (storage_roundtrip refJSON freshPage.localStorage rfl rfl).1 "k" (.num 0) (.num 5) rfl,
    (storage_roundtrip refJSON freshPage.localStorage rfl rfl).1 "k" (.bool false) (.bool true) rfl,
    (storage_roundtrip refJSON freshPage.localStorage rfl rfl).1 "k" (.str "") (.str "x") rfl,
    (storage_roundtrip refJSON freshPage.localStorage rfl rfl).2.2 "absent" (.num 7) rfl⟩

/-! ## C11: space and `k` -/

theorem toLowerCase_space_or_k (key : String) (hkey : key = " " ∨ key = "k" ∨ key = "K") :
    toLowerCase key = " " ∨ toLowerCase key = "k" := by
  rcases hkey with h | h | h
  · left; rw [h]; rfl
  · right; rw [h]; rfl
  · right; rw [h]; rfl

/-- C11. For the key space, `k` or `K` and every combination of `audio.paused`
and `video.paused`: when the target of the event is neither an `INPUT` nor a
`SELECT` element, the `keydown` listener pauses the audio if it is playing,
else pauses the video if it is playing, else starts the audio, and in each case
changes nothing else (the other player is untouched); when the target is an
`INPUT` or a `SELECT` element the state is left as it is. -/
theorem keydown_toggles_focused_player (J : JSON JsonValue) (pl : List Track) (s : Player)
    (e : KeyEvent) (hkey : e.key = " " ∨ e.key = "k" ∨ e.key = "K") :
    (e.targetTagName ≠ "INPUT" → e.targetTagName ≠ "SELECT" →
      (s.audioPaused = false →
        keydown J pl s e = .done { s with audioPaused := true }) ∧
      (s.audioPaused = true → s.videoPaused = false →
        keydown J pl s e = .done { s with videoPaused := true }) ∧
      (s.audioPaused = true → s.videoPaused = true →
        keydown J pl s e = .done { s with
          audioPaused := false
          audioPlayCalls := s.audioPlayCalls + 1 })) ∧
    ((e.targetTagName = "INPUT" ∨ e.targetTagName = "SELECT") → keydown J pl s e = .done s) := by
  have hlower := toLowerCase_space_or_k e.key hkey
  constructor
  · intro hinput hselect
    have htarget : ¬ (e.targetTagName = "INPUT" ∨ e.targetTagName = "SELECT") := by
      rintro (h | h)
      · exact hinput h
      · exact hselect h
    refine ⟨fun ha => ?_, fun ha hv => ?_, fun ha hv => ?_⟩
    · simp only [keydown, if_neg htarget, if_pos hlower, ha, Bool.not_false, if_true,
        audioPause]
    · simp only [keydown, if_neg htarget, if_pos hlower, ha, hv, Bool.not_true,
        Bool.not_false, if_true, videoPause]
      rfl
    · simp only [keydown, if_neg htarget, if_pos hlower, ha, hv, Bool.not_true, audioPlay]
      rfl
  · intro htarget
    simp only [keydown, if_pos htarget]

/-- The key `K` on the body of a page where both players are paused starts the
audio and leaves the video paused. -/
theorem keydown_toggles_focused_player_witness :
    (({ targetTagName := "BODY", key := "K" } : KeyEvent).key = " " ∨
        ({ targetTagName := "BODY", key := "K" } : KeyEvent).key = "k" ∨
        ({ targetTagName := "BODY", key := "K" } : KeyEvent).key = "K") ∧
      keydown refJSON playlist (pausedPage true true) { targetTagName := "BODY", key := "K" } =
        .done { pausedPage true true with
          audioPaused := false
          audioPlayCalls := (pausedPage true true).audioPlayCalls + 1 } :=
  ⟨Or.inr (Or.inr rfl),
    ((keydown_toggles_focused_player refJSON playlist (pausedPage true true)
      { targetTagName := "BODY", key := "K" } (Or.inr (Or.inr rfl))).1
        (by decide) (by decide)).2.2 rfl rfl⟩

end AudioVideoPlayer
